import Mathlib

/-!
# VANET speed beacons: the ns-3 and OMNeT++ agents

A shallow embedding of `src/omnet_integration/VehicleApp.cc` and of
`src/ns3_integration/vanet-speed-simulation.cc`.

Numbers.  Every finite `double` is a rational number, so `double` values are
embedded as `ℚ` and arithmetic is exact.  The one irrational operation of the
program is `sqrt`; its result is kept exactly, as the radicand (type `Root`),
and the comparison `sqrt q <= r` is decided on rationals.  Lemma
`Root.le_iff_real` states that this comparison is the comparison of real
numbers `Real.sqrt q ≤ r`.

Simulation time (`simtime_t`, `ns3::Time`) is embedded as `ℚ` seconds.
A C++ `int` is embedded as `Int` (signed overflow is undefined behaviour and
is outside the model); a `uint32_t` counter wraps modulo `2 ^ 32`.

`std::map` is embedded as an association list kept in ascending key order.
-/

namespace Vanet

/-! ## Exact square roots -/

/-- Exact value of `sqrt q` for a rational `q`: `⟨q⟩` denotes the real number `√q`. -/
structure Root where
  radicand : ℚ
deriving DecidableEq

/-- The library function `sqrt`. -/
def sqrt (q : ℚ) : Root := ⟨q⟩

/-- The comparison `d <= r` of a square root with a `double`:
`√q ≤ r` holds exactly when `0 ≤ r` and `q ≤ r²`. -/
def Root.le (d : Root) (r : ℚ) : Prop := 0 ≤ r ∧ d.radicand ≤ r ^ 2

instance (d : Root) (r : ℚ) : Decidable (d.le r) := by
  unfold Root.le; infer_instance

/-! ## `std::map` -/

section StdMap
variable {K V : Type} [LinearOrder K]

/-- The assignment `m[k] = v` of `std::map`: overwrite the entry of `k`, or
insert a new entry at its place in key order. -/
def mapSet (k : K) (v : V) : List (K × V) → List (K × V)
  | [] => [(k, v)]
  | (k1, v1) :: rest =>
    if k < k1 then (k, v) :: (k1, v1) :: rest
    else if k = k1 then (k, v) :: rest
    else (k1, v1) :: mapSet k v rest

/-- The call `m.erase(k)` of `std::map`. -/
def mapErase (k : K) : List (K × V) → List (K × V)
  | [] => []
  | (k1, v1) :: rest => if k = k1 then rest else (k1, v1) :: mapErase k rest

/-- The lookup `m.find(k)` of `std::map`. -/
def mapFind (k : K) : List (K × V) → Option V
  | [] => none
  | (k1, v1) :: rest => if k = k1 then some v1 else mapFind k rest

/-- The keys of a map, in iteration order. -/
def mapKeys (m : List (K × V)) : List K := m.map Prod.fst

/-- The representation invariant of `std::map`: keys strictly ascending. -/
def MapWF (m : List (K × V)) : Prop := (mapKeys m).Pairwise (· < ·)

instance (m : List (K × V)) : Decidable (MapWF m) := by
  unfold MapWF; infer_instance

end StdMap

/-! ## The OMNeT++ host (`VehicleApp`) -/

/-- The struct `ReceivedSpeedInfo` of `VehicleApp.h`. -/
structure ReceivedSpeedInfo where
  vehicleId : Int
  speed : ℚ
  positionX : ℚ
  positionY : ℚ
  timestamp : ℚ
  distance : Root
deriving DecidableEq

/-- The fields of the message `VANETSpeedMessage` that the agent sets and reads. -/
structure VANETSpeedMessage where
  vehicleId : Int
  speed : ℚ
  positionX : ℚ
  positionY : ℚ
  timestamp : ℚ
  vehicleType : String
deriving DecidableEq

/-- The data members of the class `VehicleApp` that the protocol logic uses. -/
structure VehicleApp where
  enableSpeedSharing : Bool
  communicationRange : ℚ
  useRealPositions : Bool
  vehicleId : Int
  vehicleType : String
  realSpeed : ℚ
  realPositionX : ℚ
  realPositionY : ℚ
  packetsSent : Int
  packetsReceived : Int
  totalDelay : ℚ
  receivedSpeeds : List (Int × ReceivedSpeedInfo)
deriving DecidableEq

/-- `VehicleApp::calculateDistance`: `sqrt(pow(x2 - x1, 2) + pow(y2 - y1, 2))`. -/
def calculateDistance (x1 y1 x2 y2 : ℚ) : Root :=
  sqrt ((x2 - x1) ^ 2 + (y2 - y1) ^ 2)

/-- The loop of `VehicleApp::cleanOldReceivedSpeeds` over the map, from the
iterator position onwards: an entry is erased when
`currentTime - timestamp > 5.0`, and kept otherwise. -/
def cleanLoop (currentTime : ℚ) :
    List (Int × ReceivedSpeedInfo) → List (Int × ReceivedSpeedInfo)
  | [] => []
  | e :: rest =>
    if currentTime - e.2.timestamp > 5 then cleanLoop currentTime rest
    else e :: cleanLoop currentTime rest

/-- `VehicleApp::cleanOldReceivedSpeeds`, at simulation time `now`. -/
def cleanOldReceivedSpeeds (s : VehicleApp) (now : ℚ) : VehicleApp :=
  { s with receivedSpeeds := cleanLoop now s.receivedSpeeds }

/-- `VehicleApp::handleIncomingMessage`, at simulation time `now`.  The call
of `exportToOpenCV` that ends the accepted branch writes a file from the state
and changes no data member. -/
def handleIncomingMessage (s : VehicleApp) (now : ℚ) (speedMsg : VANETSpeedMessage) :
    VehicleApp :=
  let distance := calculateDistance s.realPositionX s.realPositionY
    speedMsg.positionX speedMsg.positionY
  if distance.le s.communicationRange then
    let delay := now - speedMsg.timestamp
    let info : ReceivedSpeedInfo :=
      { vehicleId := speedMsg.vehicleId
        speed := speedMsg.speed
        positionX := speedMsg.positionX
        positionY := speedMsg.positionY
        timestamp := now
        distance := distance }
    cleanOldReceivedSpeeds
      { s with
        packetsReceived := s.packetsReceived + 1
        totalDelay := s.totalDelay + delay
        receivedSpeeds := mapSet speedMsg.vehicleId info s.receivedSpeeds }
      now
  else s

/-! ### The position feed -/

/-- The object stored under a vehicle key of the position-feed document; a
field is `none` when the object has no such member. -/
structure VehicleData where
  speed : Option ℚ
  x : Option ℚ
  y : Option ℚ
deriving DecidableEq

/-- The position feed `opencv_integration/vehicle_data.json` at the time of a
read: `none` when the file cannot be opened or does not parse, otherwise the
members of the root object. -/
abbrev PositionFeed := Option (List (String × VehicleData))

/-- The member lookup `root.isMember(key)` / `root[key]` of the feed document. -/
def feedMember (key : String) : List (String × VehicleData) → Option VehicleData
  | [] => none
  | (k, d) :: rest => if k = key then some d else feedMember key rest

/-- `VehicleApp::loadRealTimeData`.  The call of `updatePosition` forwards the
position to the mobility module of the host and changes no data member. -/
def loadRealTimeData (s : VehicleApp) (file : PositionFeed) : VehicleApp :=
  match file with
  | none => s
  | some root =>
    let vehicleKey := "vehicle_" ++ toString s.vehicleId
    match feedMember vehicleKey root with
    | none => s
    | some vehicleData =>
      { s with
        realSpeed := vehicleData.speed.getD 0
        realPositionX := vehicleData.x.getD 0
        realPositionY := vehicleData.y.getD 0 }

/-- `VehicleApp::sendSpeedMessage`, at simulation time `now`: the state after
the call and the message handed to the socket, if any. -/
def sendSpeedMessage (s : VehicleApp) (now : ℚ) (file : PositionFeed) :
    VehicleApp × Option VANETSpeedMessage :=
  if !s.enableSpeedSharing then (s, none)
  else
    let s1 := loadRealTimeData s file
    let speedMsg : VANETSpeedMessage :=
      { vehicleId := s1.vehicleId
        speed := s1.realSpeed
        positionX := s1.realPositionX
        positionY := s1.realPositionY
        timestamp := now
        vehicleType := s1.vehicleType }
    ({ s1 with packetsSent := s1.packetsSent + 1 }, some speedMsg)

/-- The module parameters read by `VehicleApp::initialize`. -/
structure VehicleParams where
  enableSpeedSharing : Bool
  communicationRange : ℚ
  useRealPositions : Bool
  vehicleId : Int
  vehicleType : String

/-- `VehicleApp::initialize`, both stages: the parameters are read, the
real-time data and the statistics are zeroed, and the feed is loaded once.
A newly constructed `std::map` is empty. -/
def initApp (p : VehicleParams) (file : PositionFeed) : VehicleApp :=
  loadRealTimeData
    { enableSpeedSharing := p.enableSpeedSharing
      communicationRange := p.communicationRange
      useRealPositions := p.useRealPositions
      vehicleId := p.vehicleId
      vehicleType := p.vehicleType
      realSpeed := 0
      realPositionX := 0
      realPositionY := 0
      packetsSent := 0
      packetsReceived := 0
      totalDelay := 0
      receivedSpeeds := [] }
    file

/-- The scalars recorded by `VehicleApp::finish`. -/
structure FinishScalars where
  packetsSent : Int
  packetsReceived : Int
  averageDelay : ℚ
  throughput : ℚ
deriving DecidableEq

/-- `VehicleApp::finish`, at simulation time `now`. -/
def finish (s : VehicleApp) (now : ℚ) : FinishScalars :=
  { packetsSent := s.packetsSent
    packetsReceived := s.packetsReceived
    averageDelay := if s.packetsReceived > 0 then s.totalDelay / s.packetsReceived else 0
    throughput := s.packetsReceived / now }

/-- A run of receive events: `handleIncomingMessage` for each pair of receive
time and message, in order. -/
def receiveAll (s : VehicleApp) : List (ℚ × VANETSpeedMessage) → VehicleApp
  | [] => s
  | (now, speedMsg) :: rest => receiveAll (handleIncomingMessage s now speedMsg) rest

/-! ## The ns-3 host (`VANETSpeedApp`) -/

/-- The class `VANETSpeedHeader`. -/
structure VANETSpeedHeader where
  m_vehicleId : Nat
  m_speed : ℚ
  m_positionX : ℚ
  m_positionY : ℚ
  m_timestamp : ℚ
deriving DecidableEq

/-- A packet as `HandleRead` sees it: its size and the header it carries. -/
structure Packet where
  size : Nat
  header : VANETSpeedHeader
deriving DecidableEq

/-- The data members of the class `VANETSpeedApp` that the protocol logic
uses.  `m_sendEvent` is the time of the pending send event, `none` when no
event is pending; `m_dataRate` is the bit rate. -/
structure VANETSpeedApp where
  m_packetSize : Nat
  m_nPackets : Nat
  m_dataRate : Nat
  m_sendEvent : Option ℚ
  m_running : Bool
  m_packetsSent : Nat
  m_packetsReceived : Nat
  m_vehicleId : Nat
  m_speed : ℚ
  m_positionX : ℚ
  m_positionY : ℚ
  m_receivedSpeeds : List (Nat × ℚ)
  m_lastReceived : List (Nat × ℚ)
deriving DecidableEq

/-- The constructor `VANETSpeedApp::VANETSpeedApp` followed by `Setup`. -/
def Setup (packetSize nPackets dataRate vehicleId : Nat) : VANETSpeedApp :=
  { m_packetSize := packetSize
    m_nPackets := nPackets
    m_dataRate := dataRate
    m_sendEvent := none
    m_running := false
    m_packetsSent := 0
    m_packetsReceived := 0
    m_vehicleId := vehicleId
    m_speed := 0
    m_positionX := 0
    m_positionY := 0
    m_receivedSpeeds := []
    m_lastReceived := [] }

/-- `VANETSpeedApp::ScheduleTx`, at simulation time `now`: while running, a
send event is scheduled `m_packetSize * 8 / bitRate` seconds ahead
(`m_packetSize * 8` is a `uint32_t` product; the quotient by a zero bit rate,
infinite in C++, is 0 here). -/
def ScheduleTx (s : VANETSpeedApp) (now : ℚ) : VANETSpeedApp :=
  if s.m_running then
    let tNext : ℚ := ((s.m_packetSize * 8 % 2 ^ 32 : Nat) : ℚ) / (s.m_dataRate : ℚ)
    { s with m_sendEvent := some (now + tNext) }
  else s

/-- `VANETSpeedApp::StartApplication`, at simulation time `now`. -/
def StartApplication (s : VANETSpeedApp) (now : ℚ) : VANETSpeedApp :=
  ScheduleTx { s with m_running := true, m_packetsSent := 0, m_packetsReceived := 0 } now

/-- `VANETSpeedApp::StopApplication`: a pending send event is cancelled. -/
def StopApplication (s : VANETSpeedApp) : VANETSpeedApp :=
  { s with m_running := false, m_sendEvent := none }

/-- `VANETSpeedApp::LoadOpenCVData`. -/
def LoadOpenCVData (s : VANETSpeedApp) (file : PositionFeed) : VANETSpeedApp :=
  match file with
  | none => s
  | some root =>
    let vehicleKey := "vehicle_" ++ toString s.m_vehicleId
    match feedMember vehicleKey root with
    | none => s
    | some vehicleData =>
      { s with
        m_speed := vehicleData.speed.getD 0
        m_positionX := vehicleData.x.getD 0
        m_positionY := vehicleData.y.getD 0 }

/-- `VANETSpeedApp::SendSpeedMessage`, at simulation time `now`: the state
after the call and the packet handed to the socket.  The call of
`ExportToOpenCV` writes a file from the state and changes no data member. -/
def SendSpeedMessage (s : VANETSpeedApp) (now : ℚ) (file : PositionFeed) :
    VANETSpeedApp × Packet :=
  let s1 := LoadOpenCVData s file
  let header : VANETSpeedHeader :=
    { m_vehicleId := s1.m_vehicleId
      m_speed := s1.m_speed
      m_positionX := s1.m_positionX
      m_positionY := s1.m_positionY
      m_timestamp := now }
  let packet : Packet := { size := s1.m_packetSize, header := header }
  let s2 := { s1 with m_packetsSent := (s1.m_packetsSent + 1) % 2 ^ 32 }
  if s2.m_packetsSent < s2.m_nPackets then (ScheduleTx s2 now, packet)
  else (s2, packet)

/-- The eviction loop of `VANETSpeedApp::HandleRead` over `m_lastReceived`,
from the iterator position onwards: when `currentTime - time > Seconds(5.0)`
the key is erased from `m_receivedSpeeds` and the entry from
`m_lastReceived`.  The result is the pair of `m_receivedSpeeds` and the rest
of `m_lastReceived`. -/
def evictLoop (currentTime : ℚ) :
    List (Nat × ℚ) → List (Nat × ℚ) → List (Nat × ℚ) × List (Nat × ℚ)
  | [], speeds => (speeds, [])
  | e :: rest, speeds =>
    if currentTime - e.2 > 5 then evictLoop currentTime rest (mapErase e.1 speeds)
    else
      let r := evictLoop currentTime rest speeds
      (r.1, e :: r.2)

/-- The body of the receive loop of `VANETSpeedApp::HandleRead` for one
packet returned by `RecvFrom`, at simulation time `now`. -/
def handlePacket (s : VANETSpeedApp) (now : ℚ) (packet : Packet) : VANETSpeedApp :=
  if packet.size > 0 then
    let s1 := { s with m_packetsReceived := (s.m_packetsReceived + 1) % 2 ^ 32 }
    let senderId := packet.header.m_vehicleId
    let senderSpeed := packet.header.m_speed
    let senderX := packet.header.m_positionX
    let senderY := packet.header.m_positionY
    let distance := sqrt ((senderX - s1.m_positionX) ^ 2 + (senderY - s1.m_positionY) ^ 2)
    let s2 :=
      if distance.le 300 ∧ senderId ≠ s1.m_vehicleId then
        { s1 with
          m_receivedSpeeds := mapSet senderId senderSpeed s1.m_receivedSpeeds
          m_lastReceived := mapSet senderId now s1.m_lastReceived }
      else s1
    let r := evictLoop now s2.m_lastReceived s2.m_receivedSpeeds
    { s2 with m_receivedSpeeds := r.1, m_lastReceived := r.2 }
  else s

/-- `VANETSpeedApp::HandleRead`, at simulation time `now`: the loop
`while ((packet = socket->RecvFrom (from)))` over the packets queued at the
socket. -/
def HandleRead (s : VANETSpeedApp) (now : ℚ) : List Packet → VANETSpeedApp
  | [] => s
  | packet :: queue => HandleRead (handlePacket s now packet) now queue

/-! ### Runs of the ns-3 agent -/

/-- The events that the ns-3 scheduler and socket deliver to the agent: the
start and the stop of the application, a send event with the position feed
as it is then, and a receive callback with the packets queued at the socket. -/
inductive AgentEvent where
  | start (now : ℚ)
  | send (now : ℚ) (file : PositionFeed)
  | read (now : ℚ) (queue : List Packet)
  | stop

/-- The agent after one event. -/
def agentStep (s : VANETSpeedApp) : AgentEvent → VANETSpeedApp
  | AgentEvent.start now => StartApplication s now
  | AgentEvent.send now file => (SendSpeedMessage s now file).1
  | AgentEvent.read now queue => HandleRead s now queue
  | AgentEvent.stop => StopApplication s

/-- The agent after a sequence of events, in order. -/
def agentRun (s : VANETSpeedApp) : List AgentEvent → VANETSpeedApp
  | [] => s
  | ev :: rest => agentRun (agentStep s ev) rest

/-! ## The specification's reading of the distance test -/

/-- The distance test as the specification words it, over the real numbers:
the Euclidean distance between `(x1, y1)` and `(x2, y2)` is at most `r`. -/
def WithinReal (x1 y1 x2 y2 r : ℚ) : Prop :=
  Real.sqrt (((x2 : ℝ) - (x1 : ℝ)) ^ 2 + ((y2 : ℝ) - (y1 : ℝ)) ^ 2) ≤ (r : ℝ)

/-- The accepted beacons of a sequence of receive events, for an agent at the
position and with the range of `s`: the events that pass the distance test of
`handleIncomingMessage`. -/
def acceptedBy (s : VehicleApp) (evs : List (ℚ × VANETSpeedMessage)) :
    List (ℚ × VANETSpeedMessage) :=
  evs.filter (fun e => decide ((calculateDistance s.realPositionX s.realPositionY
    e.2.positionX e.2.positionY).le s.communicationRange))

/-! ## Concrete agents and beacons -/

/-- Vehicle 2 of the scenarios: id 2 at `(100, 0)`, speed 20, range 300, with
an empty neighbor table and zeroed statistics. -/
def vehicle2 : VehicleApp :=
  { enableSpeedSharing := true
    communicationRange := 300
    useRealPositions := false
    vehicleId := 2
    vehicleType := "car"
    realSpeed := 20
    realPositionX := 100
    realPositionY := 0
    packetsSent := 0
    packetsReceived := 0
    totalDelay := 0
    receivedSpeeds := [] }

/-- The beacon of vehicle 1 of the scenarios, sent at time `t`: id 1 at
`(0, 0)`, speed 10. -/
def beacon1 (t : ℚ) : VANETSpeedMessage :=
  { vehicleId := 1
    speed := 10
    positionX := 0
    positionY := 0
    timestamp := t
    vehicleType := "car" }

/-- An ns-3 agent with id 0 at the origin, as constructed and set up by
`main` (packet size 512, 1000 packets, 1 Mbps). -/
def ns3Vehicle0 : VANETSpeedApp := Setup 512 1000 1000000 0

/-- A packet of 512 bytes carrying the beacon of vehicle `id` at `(x, 0)`,
speed 10, sent at time 0. -/
def ns3Packet (id : Nat) (x : ℚ) : Packet :=
  { size := 512
    header :=
      { m_vehicleId := id
        m_speed := 10
        m_positionX := x
        m_positionY := 0
        m_timestamp := 0 } }

/-- The beacon that vehicle 2 itself broadcasts at time `t`: its own id,
position and speed. -/
def ownBeacon2 (t : ℚ) : VANETSpeedMessage :=
  { vehicleId := vehicle2.vehicleId
    speed := vehicle2.realSpeed
    positionX := vehicle2.realPositionX
    positionY := vehicle2.realPositionY
    timestamp := t
    vehicleType := vehicle2.vehicleType }

/-- The neighbor record that a receiver writes at time `t` for the beacon of
vehicle 1, whose distance is the square root of `d2`. -/
def record1 (t d2 : ℚ) : ReceivedSpeedInfo :=
  { vehicleId := 1
    speed := 10
    positionX := 0
    positionY := 0
    timestamp := t
    distance := sqrt d2 }

/-- The beacon of a vehicle 3 at `(x, 0)`, speed 30, sent at time `t`. -/
def beacon3 (x t : ℚ) : VANETSpeedMessage :=
  { vehicleId := 3
    speed := 30
    positionX := x
    positionY := 0
    timestamp := t
    vehicleType := "car" }

/-- The neighbor record that a receiver writes at time `t` for the beacon of
vehicle 3 at `(x, 0)`, whose distance is the square root of `d2`. -/
def record3 (x t d2 : ℚ) : ReceivedSpeedInfo :=
  { vehicleId := 3
    speed := 30
    positionX := x
    positionY := 0
    timestamp := t
    distance := sqrt d2 }

/-- Vehicle 2 after it accepted the beacon of vehicle 1 at time 10 (Scenario C). -/
def vehicle2At10 : VehicleApp := handleIncomingMessage vehicle2 10 (beacon1 10)

/-- A position feed that parses and has an entry for vehicle 1 only. -/
def feedOfVehicle1 : List (String × VehicleData) :=
  [("vehicle_1", { speed := some 10, x := some 0, y := some 0 })]

/-- The module parameters of vehicle 2 of the scenarios. -/
def params2 : VehicleParams :=
  { enableSpeedSharing := true
    communicationRange := 300
    useRealPositions := false
    vehicleId := 2
    vehicleType := "car" }

/-! # Theorems -/
/-! ## Lemmas on exact square roots and maps -/

theorem Root.le_iff_real (d : Root) (r : ℚ) :
    d.le r ↔ Real.sqrt (d.radicand : ℝ) ≤ (r : ℝ) := by
  unfold Root.le
  rw [Real.sqrt_le_iff]
  constructor
  · rintro ⟨h1, h2⟩
    exact ⟨by exact_mod_cast h1, by exact_mod_cast h2⟩
  · rintro ⟨h1, h2⟩
    exact ⟨by exact_mod_cast h1, by exact_mod_cast h2⟩

theorem withinReal_iff (x1 y1 x2 y2 r : ℚ) :
    WithinReal x1 y1 x2 y2 r ↔ (sqrt ((x2 - x1) ^ 2 + (y2 - y1) ^ 2)).le r := by
  rw [Root.le_iff_real]
  simp [WithinReal, sqrt]

section MapLemmas
variable {K V : Type} [LinearOrder K]

theorem mapFind_mapSet_self (k : K) (v : V) (m : List (K × V)) :
    mapFind k (mapSet k v m) = some v := by
  induction m with
  | nil => simp [mapSet, mapFind]
  | cons e rest ih =>
    obtain ⟨k1, v1⟩ := e
    simp only [mapSet]
    split_ifs with h1 h2
    · simp [mapFind]
    · simp [mapFind]
    · simp [mapFind, h2, ih]

theorem mem_mapSet (k : K) (v : V) (m : List (K × V)) (e : K × V)
    (he : e ∈ mapSet k v m) : e = (k, v) ∨ e ∈ m := by
  induction m with
  | nil => simpa [mapSet] using he
  | cons e1 rest ih =>
    obtain ⟨k1, v1⟩ := e1
    simp only [mapSet] at he
    split_ifs at he with h1 h2
    · simp only [List.mem_cons] at he ⊢
      tauto
    · simp only [List.mem_cons] at he ⊢
      tauto
    · simp only [List.mem_cons] at he ⊢
      rcases he with he | he
      · tauto
      · rcases ih he with h | h <;> tauto

theorem mem_mapSet_self (k : K) (v : V) (m : List (K × V)) : (k, v) ∈ mapSet k v m := by
  induction m with
  | nil => simp [mapSet]
  | cons e rest ih =>
    obtain ⟨k1, v1⟩ := e
    simp only [mapSet]
    split_ifs with h1 h2
    · simp
    · simp
    · simp only [List.mem_cons]
      right
      exact ih

theorem mapSet_wf (k : K) (v : V) (m : List (K × V)) (hwf : MapWF m) :
    MapWF (mapSet k v m) := by
  induction m with
  | nil => simp [mapSet, MapWF, mapKeys]
  | cons e1 rest ih =>
    obtain ⟨k1, v1⟩ := e1
    have hrest : MapWF rest := by
      simp only [MapWF, mapKeys, List.map_cons, List.pairwise_cons] at hwf
      exact hwf.2
    have hhead : ∀ e ∈ rest, k1 < e.1 := by
      simp only [MapWF, mapKeys, List.map_cons, List.pairwise_cons, List.mem_map] at hwf
      intro e he
      exact hwf.1 e.1 ⟨e, he, rfl⟩
    simp only [mapSet]
    split_ifs with h1 h2
    · simp only [MapWF, mapKeys, List.map_cons, List.pairwise_cons, List.mem_cons,
        List.mem_map] at hwf ⊢
      refine ⟨?_, hwf⟩
      rintro a (rfl | ⟨e, he, rfl⟩)
      · exact h1
      · exact lt_trans h1 (hhead e he)
    · subst h2
      simpa [MapWF, mapKeys] using hwf
    · have hlt : k1 < k := lt_of_le_of_ne (not_lt.mp h1) (Ne.symm h2)
      simp only [MapWF, mapKeys, List.map_cons, List.pairwise_cons, List.mem_map]
      refine ⟨?_, ih hrest⟩
      rintro a ⟨e, he, rfl⟩
      rcases mem_mapSet k v rest e he with h | h
      · simpa [h] using hlt
      · exact hhead e h

theorem mapSet_entry_unique (k : K) (v : V) (m : List (K × V)) (hwf : MapWF m)
    (e : K × V) (he : e ∈ mapSet k v m) (hk : e.1 = k) : e = (k, v) := by
  induction m with
  | nil => simpa [mapSet] using he
  | cons e1 rest ih =>
    obtain ⟨k1, v1⟩ := e1
    have hrest : MapWF rest := by
      simp only [MapWF, mapKeys, List.map_cons, List.pairwise_cons] at hwf
      exact hwf.2
    have hhead : ∀ e ∈ rest, k1 < e.1 := by
      simp only [MapWF, mapKeys, List.map_cons, List.pairwise_cons, List.mem_map] at hwf
      intro e he
      exact hwf.1 e.1 ⟨e, he, rfl⟩
    simp only [mapSet] at he
    split_ifs at he with h1 h2
    · simp only [List.mem_cons] at he
      rcases he with he | he | he
      · exact he
      · subst he; exact absurd hk (ne_of_gt h1)
      · exact absurd hk (ne_of_gt (lt_trans h1 (hhead e he)))
    · subst h2
      simp only [List.mem_cons] at he
      rcases he with he | he
      · exact he
      · exact absurd hk (ne_of_gt (hhead e he))
    · simp only [List.mem_cons] at he
      rcases he with he | he
      · subst he; exact absurd hk.symm h2
      · exact ih hrest he

theorem mapFind_mapErase_ne (k k1 : K) (m : List (K × V)) (h : k ≠ k1) :
    mapFind k (mapErase k1 m) = mapFind k m := by
  induction m with
  | nil => simp [mapErase]
  | cons e rest ih =>
    obtain ⟨k2, v2⟩ := e
    simp only [mapErase]
    split_ifs with h1
    · subst h1
      simp [mapFind, h]
    · simp [mapFind, ih]

theorem mapFind_filter (k : K) (m : List (K × V)) (P : K × V → Bool)
    (h : ∀ e ∈ m, e.1 = k → P e = true) :
    mapFind k (m.filter P) = mapFind k m := by
  induction m with
  | nil => simp
  | cons e rest ih =>
    obtain ⟨k1, v1⟩ := e
    have hrest : ∀ e ∈ rest, e.1 = k → P e = true :=
      fun e he => h e (List.mem_cons_of_mem _ he)
    by_cases hk : k = k1
    · subst hk
      have : P (k, v1) = true := h (k, v1) (List.mem_cons_self _ _) rfl
      simp [List.filter_cons, this, mapFind]
    · cases hP : P (k1, v1)
      · simp [List.filter_cons, hP, mapFind, hk, ih hrest]
      · simp [List.filter_cons, hP, mapFind, hk, ih hrest]

end MapLemmas

/-! ## The eviction loops -/

theorem cleanLoop_eq_filter (now : ℚ) (m : List (Int × ReceivedSpeedInfo)) :
    cleanLoop now m = m.filter (fun e => decide (now - e.2.timestamp ≤ 5)) := by
  induction m with
  | nil => simp [cleanLoop]
  | cons e rest ih =>
    simp only [cleanLoop, List.filter_cons, ih]
    by_cases h : now - e.2.timestamp > 5
    · have h2 : ¬ (now - e.2.timestamp ≤ 5) := not_le.mpr h
      simp [h, h2]
    · have h2 : now - e.2.timestamp ≤ 5 := not_lt.mp h
      simp [h, h2]

theorem evictLoop_snd (now : ℚ) (l speeds : List (Nat × ℚ)) :
    (evictLoop now l speeds).2 = l.filter (fun e => decide (now - e.2 ≤ 5)) := by
  induction l generalizing speeds with
  | nil => simp [evictLoop]
  | cons e rest ih =>
    simp only [evictLoop, List.filter_cons]
    by_cases h : now - e.2 > 5
    · have h2 : ¬ (now - e.2 ≤ 5) := not_le.mpr h
      simp [h, h2, ih]
    · have h2 : now - e.2 ≤ 5 := not_lt.mp h
      simp [h, h2, ih]

theorem mapFind_evictLoop_fst (now : ℚ) (k : Nat) (l speeds : List (Nat × ℚ))
    (h : ∀ e ∈ l, e.1 = k → now - e.2 ≤ 5) :
    mapFind k (evictLoop now l speeds).1 = mapFind k speeds := by
  induction l generalizing speeds with
  | nil => simp [evictLoop]
  | cons e rest ih =>
    have hrest : ∀ e ∈ rest, e.1 = k → now - e.2 ≤ 5 :=
      fun e he => h e (List.mem_cons_of_mem _ he)
    simp only [evictLoop]
    by_cases hold : now - e.2 > 5
    · have hne : k ≠ e.1 := by
        intro hk
        exact absurd (h e (List.mem_cons_self _ _) hk.symm) (not_le.mpr hold)
      simp only [hold, if_true]
      rw [ih _ hrest, mapFind_mapErase_ne k e.1 speeds hne]
    · simp only [hold, if_false]
      exact ih _ hrest

/-! ## The two branches of `handleIncomingMessage` -/

theorem handleIncomingMessage_accept (s : VehicleApp) (now : ℚ) (b : VANETSpeedMessage)
    (hacc : (calculateDistance s.realPositionX s.realPositionY
      b.positionX b.positionY).le s.communicationRange) :
    handleIncomingMessage s now b =
      { s with
        packetsReceived := s.packetsReceived + 1
        totalDelay := s.totalDelay + (now - b.timestamp)
        receivedSpeeds := cleanLoop now (mapSet b.vehicleId
          { vehicleId := b.vehicleId
            speed := b.speed
            positionX := b.positionX
            positionY := b.positionY
            timestamp := now
            distance := calculateDistance s.realPositionX s.realPositionY
              b.positionX b.positionY } s.receivedSpeeds) } := by
  unfold handleIncomingMessage
  dsimp only
  rw [if_pos hacc]
  rfl

theorem handleIncomingMessage_reject (s : VehicleApp) (now : ℚ) (b : VANETSpeedMessage)
    (hrej : ¬ (calculateDistance s.realPositionX s.realPositionY
      b.positionX b.positionY).le s.communicationRange) :
    handleIncomingMessage s now b = s := by
  unfold handleIncomingMessage
  dsimp only
  rw [if_neg hrej]

/-! ## C1: the proximity filter of the ns-3 host -/

theorem handlePacket_accept (s : VANETSpeedApp) (now : ℚ) (packet : Packet)
    (hsize : 0 < packet.size)
    (hacc : (sqrt ((packet.header.m_positionX - s.m_positionX) ^ 2
        + (packet.header.m_positionY - s.m_positionY) ^ 2)).le 300
      ∧ packet.header.m_vehicleId ≠ s.m_vehicleId) :
    handlePacket s now packet =
      { s with
        m_packetsReceived := (s.m_packetsReceived + 1) % 2 ^ 32
        m_receivedSpeeds :=
          (evictLoop now (mapSet packet.header.m_vehicleId now s.m_lastReceived)
            (mapSet packet.header.m_vehicleId packet.header.m_speed s.m_receivedSpeeds)).1
        m_lastReceived :=
          (evictLoop now (mapSet packet.header.m_vehicleId now s.m_lastReceived)
            (mapSet packet.header.m_vehicleId packet.header.m_speed s.m_receivedSpeeds)).2 } := by
  unfold handlePacket
  dsimp only
  rw [if_pos hsize, if_pos hacc]

theorem handlePacket_reject (s : VANETSpeedApp) (now : ℚ) (packet : Packet)
    (hsize : 0 < packet.size)
    (hrej : ¬ ((sqrt ((packet.header.m_positionX - s.m_positionX) ^ 2
        + (packet.header.m_positionY - s.m_positionY) ^ 2)).le 300
      ∧ packet.header.m_vehicleId ≠ s.m_vehicleId)) :
    handlePacket s now packet =
      { s with
        m_packetsReceived := (s.m_packetsReceived + 1) % 2 ^ 32
        m_receivedSpeeds := (evictLoop now s.m_lastReceived s.m_receivedSpeeds).1
        m_lastReceived := (evictLoop now s.m_lastReceived s.m_receivedSpeeds).2 } := by
  unfold handlePacket
  dsimp only
  rw [if_pos hsize, if_neg hrej]

/-- C1: for a non-empty packet, `HandleRead` records the sender exactly when
the real Euclidean distance to it is at most 300 and the sender is another
vehicle.  When both hold, both neighbor maps hold the sender after the call
(its speed, and the receive time); otherwise the maps after the call are the
swept maps of the state before, whatever the packet carries. -/
theorem HandleRead_records_iff_within_300 (s : VANETSpeedApp) (now : ℚ) (packet : Packet)
    (hsize : 0 < packet.size) (hwf : MapWF s.m_lastReceived) :
    (WithinReal s.m_positionX s.m_positionY
          packet.header.m_positionX packet.header.m_positionY 300
        ∧ packet.header.m_vehicleId ≠ s.m_vehicleId →
      mapFind packet.header.m_vehicleId (HandleRead s now [packet]).m_receivedSpeeds
          = some packet.header.m_speed
        ∧ mapFind packet.header.m_vehicleId (HandleRead s now [packet]).m_lastReceived
          = some now)
    ∧ (¬ (WithinReal s.m_positionX s.m_positionY
          packet.header.m_positionX packet.header.m_positionY 300
        ∧ packet.header.m_vehicleId ≠ s.m_vehicleId) →
      (HandleRead s now [packet]).m_receivedSpeeds
          = (evictLoop now s.m_lastReceived s.m_receivedSpeeds).1
        ∧ (HandleRead s now [packet]).m_lastReceived
          = (evictLoop now s.m_lastReceived s.m_receivedSpeeds).2) := by
  have hfresh : ∀ e ∈ mapSet packet.header.m_vehicleId now s.m_lastReceived,
      e.1 = packet.header.m_vehicleId → now - e.2 ≤ 5 := by
    intro e he hk
    rw [mapSet_entry_unique _ _ _ hwf e he hk]
    norm_num
  constructor
  · intro hacc
    rw [withinReal_iff] at hacc
    simp only [HandleRead]
    rw [handlePacket_accept s now packet hsize hacc]
    constructor
    · show mapFind _ (evictLoop _ _ _).1 = _
      rw [mapFind_evictLoop_fst now _ _ _ hfresh, mapFind_mapSet_self]
    · show mapFind _ (evictLoop _ _ _).2 = _
      rw [evictLoop_snd, mapFind_filter, mapFind_mapSet_self]
      intro e he hk
      simpa using hfresh e he hk
  · intro hrej
    rw [withinReal_iff] at hrej
    simp only [HandleRead]
    rw [handlePacket_reject s now packet hsize hrej]
    exact ⟨rfl, rfl⟩

/-- Witness for C1, on the boundary: a sender at distance exactly 300 is recorded. -/
theorem HandleRead_records_iff_within_300_witness :
    0 < (ns3Packet 1 300).size ∧ MapWF ns3Vehicle0.m_lastReceived
    ∧ WithinReal ns3Vehicle0.m_positionX ns3Vehicle0.m_positionY
        (ns3Packet 1 300).header.m_positionX (ns3Packet 1 300).header.m_positionY 300
    ∧ (ns3Packet 1 300).header.m_vehicleId ≠ ns3Vehicle0.m_vehicleId
    ∧ mapFind (ns3Packet 1 300).header.m_vehicleId
        (HandleRead ns3Vehicle0 7 [ns3Packet 1 300]).m_receivedSpeeds
        = some (ns3Packet 1 300).header.m_speed
    ∧ mapFind (ns3Packet 1 300).header.m_vehicleId
        (HandleRead ns3Vehicle0 7 [ns3Packet 1 300]).m_lastReceived
        = some 7 := by
  have hacc : WithinReal ns3Vehicle0.m_positionX ns3Vehicle0.m_positionY
      (ns3Packet 1 300).header.m_positionX (ns3Packet 1 300).header.m_positionY 300 := by
    rw [withinReal_iff]
    norm_num [Root.le, sqrt, ns3Vehicle0, ns3Packet, Setup]
  have hne : (ns3Packet 1 300).header.m_vehicleId ≠ ns3Vehicle0.m_vehicleId := by decide
  have h := (HandleRead_records_iff_within_300 ns3Vehicle0 7 (ns3Packet 1 300)
    (by decide) (by decide)).1 ⟨hacc, hne⟩
  exact ⟨by decide, by decide, hacc, hne, h.1, h.2⟩

/-- Evaluation of C1 at the boundary: from the origin, a sender at `(300, 0)`
is recorded and a sender at `(301, 0)` is not; a sender with the agent's own
id is not recorded either. -/
theorem HandleRead_boundary_examples :
    (HandleRead ns3Vehicle0 7 [ns3Packet 1 300]).m_receivedSpeeds = [(1, 10)]
    ∧ (HandleRead ns3Vehicle0 7 [ns3Packet 1 300]).m_lastReceived = [(1, 7)]
    ∧ (HandleRead ns3Vehicle0 7 [ns3Packet 1 301]).m_receivedSpeeds = []
    ∧ (HandleRead ns3Vehicle0 7 [ns3Packet 1 301]).m_lastReceived = []
    ∧ (HandleRead ns3Vehicle0 7 [ns3Packet 0 10]).m_receivedSpeeds = []
    ∧ (HandleRead ns3Vehicle0 7 [ns3Packet 0 10]).m_lastReceived = [] := by
  simp [HandleRead, handlePacket, ns3Vehicle0, ns3Packet, Setup, sqrt, Root.le, mapSet,
    evictLoop]
  norm_num

/-! ## C2: a beacon with the agent's own id, in the OMNeT++ host -/

theorem handleIncomingMessage_own_position_accepted (s : VehicleApp) (now : ℚ)
    (b : VANETSpeedMessage) (hrange : 0 ≤ s.communicationRange)
    (hx : b.positionX = s.realPositionX) (hy : b.positionY = s.realPositionY) :
    (handleIncomingMessage s now b).packetsReceived = s.packetsReceived + 1
    ∧ (handleIncomingMessage s now b).totalDelay = s.totalDelay + (now - b.timestamp) := by
  have hacc : (calculateDistance s.realPositionX s.realPositionY
      b.positionX b.positionY).le s.communicationRange := by
    have hsq := sq_nonneg s.communicationRange
    simp only [calculateDistance, sqrt, Root.le, hx, hy, sub_self]
    exact ⟨hrange, by simpa using hsq⟩
  rw [handleIncomingMessage_accept s now b hacc]
  exact ⟨rfl, rfl⟩

/-- C2, evaluated: `handleIncomingMessage` of vehicle 2 on the beacon that
vehicle 2 itself sent (same id, same position, distance 0) accepts it: the
received counter and the delay grow, and the neighbor table gets an entry
keyed by the agent's own id. -/
theorem handleIncomingMessage_accepts_own_beacon :
    (ownBeacon2 1).vehicleId = vehicle2.vehicleId
    ∧ (handleIncomingMessage vehicle2 3 (ownBeacon2 1)).packetsReceived = 1
    ∧ (handleIncomingMessage vehicle2 3 (ownBeacon2 1)).totalDelay = 2
    ∧ (handleIncomingMessage vehicle2 3 (ownBeacon2 1)).receivedSpeeds =
        [(2, { vehicleId := 2, speed := 20, positionX := 100, positionY := 0,
               timestamp := 3, distance := sqrt 0 })] := by
  simp [handleIncomingMessage, cleanOldReceivedSpeeds, cleanLoop, calculateDistance,
    vehicle2, ownBeacon2, sqrt, Root.le, mapSet]
  norm_num

/-! ## C3: the eviction sweep of the OMNeT++ host -/

/-- C3: `cleanOldReceivedSpeeds` keeps exactly the records whose age
`now - timestamp` is at most 5, unchanged and in order, and touches no other
data member; a single record of age exactly 5 survives, and a single record
of age 6 is removed, which leaves the table empty. -/
theorem cleanOldReceivedSpeeds_keeps_exactly_fresh (s : VehicleApp) (now : ℚ) :
    (∀ e, e ∈ (cleanOldReceivedSpeeds s now).receivedSpeeds ↔
        e ∈ s.receivedSpeeds ∧ now - e.2.timestamp ≤ 5)
    ∧ (cleanOldReceivedSpeeds s now).receivedSpeeds =
        s.receivedSpeeds.filter (fun e => decide (now - e.2.timestamp ≤ 5))
    ∧ cleanOldReceivedSpeeds s now =
        { s with receivedSpeeds := (cleanOldReceivedSpeeds s now).receivedSpeeds }
    ∧ (∀ (k : Int) (r : ReceivedSpeedInfo),
        (cleanOldReceivedSpeeds
          { s with receivedSpeeds := [(k, { r with timestamp := now - 5 })] }
          now).receivedSpeeds = [(k, { r with timestamp := now - 5 })])
    ∧ (∀ (k : Int) (r : ReceivedSpeedInfo),
        (cleanOldReceivedSpeeds
          { s with receivedSpeeds := [(k, { r with timestamp := now - 6 })] }
          now).receivedSpeeds = []) := by
  refine ⟨?_, ?_, rfl, ?_, ?_⟩
  · intro e
    simp [cleanOldReceivedSpeeds, cleanLoop_eq_filter]
  · simp [cleanOldReceivedSpeeds, cleanLoop_eq_filter]
  · intro k r
    simp [cleanOldReceivedSpeeds, cleanLoop]
  · intro k r
    simp [cleanOldReceivedSpeeds, cleanLoop]
    norm_num

/-! ## C4: the record written by an accepted receive -/

theorem mapWF_nodup {K V : Type} [LinearOrder K] (m : List (K × V)) (hwf : MapWF m) :
    m.Nodup := by
  have h : (mapKeys m).Nodup := List.Pairwise.imp (fun hab => ne_of_lt hab) hwf
  exact List.Nodup.of_map _ h

theorem cleanLoop_wf (now : ℚ) (m : List (Int × ReceivedSpeedInfo)) (hwf : MapWF m) :
    MapWF (cleanLoop now m) := by
  rw [cleanLoop_eq_filter]
  exact List.Pairwise.sublist (List.Sublist.map _ (List.filter_sublist _)) hwf

theorem handleIncomingMessage_wf (s : VehicleApp) (now : ℚ) (b : VANETSpeedMessage)
    (hwf : MapWF s.receivedSpeeds) : MapWF (handleIncomingMessage s now b).receivedSpeeds := by
  by_cases hacc : (calculateDistance s.realPositionX s.realPositionY
      b.positionX b.positionY).le s.communicationRange
  · rw [handleIncomingMessage_accept s now b hacc]
    exact cleanLoop_wf now _ (mapSet_wf _ _ _ hwf)
  · rw [handleIncomingMessage_reject s now b hacc]
    exact hwf

theorem mapFind_handleIncomingMessage_accept (s : VehicleApp) (now : ℚ)
    (b : VANETSpeedMessage)
    (hacc : (calculateDistance s.realPositionX s.realPositionY
      b.positionX b.positionY).le s.communicationRange)
    (hwf : MapWF s.receivedSpeeds) :
    mapFind b.vehicleId (handleIncomingMessage s now b).receivedSpeeds =
        some { vehicleId := b.vehicleId
               speed := b.speed
               positionX := b.positionX
               positionY := b.positionY
               timestamp := now
               distance := calculateDistance s.realPositionX s.realPositionY
                 b.positionX b.positionY } := by
  rw [handleIncomingMessage_accept s now b hacc]
  dsimp only
  rw [cleanLoop_eq_filter, mapFind_filter, mapFind_mapSet_self]
  intro e he hk
  rw [mapSet_entry_unique _ _ _ hwf e he hk]
  simp

/-- C4: when the real Euclidean distance from the agent to the beacon is
within `communicationRange`, the table after `handleIncomingMessage` (the
eviction sweep of the same call included) holds under the sender's id the
record made of the beacon's id, speed and position, the receive time and the
distance, it holds exactly one record under that id, and the stored distance
is the Euclidean distance. -/
theorem handleIncomingMessage_accepted_record (s : VehicleApp) (now : ℚ)
    (b : VANETSpeedMessage)
    (hacc : WithinReal s.realPositionX s.realPositionY b.positionX b.positionY
      s.communicationRange)
    (hwf : MapWF s.receivedSpeeds) :
    mapFind b.vehicleId (handleIncomingMessage s now b).receivedSpeeds =
        some { vehicleId := b.vehicleId
               speed := b.speed
               positionX := b.positionX
               positionY := b.positionY
               timestamp := now
               distance := calculateDistance s.realPositionX s.realPositionY
                 b.positionX b.positionY }
    ∧ ((handleIncomingMessage s now b).receivedSpeeds.filter
        (fun e => decide (e.1 = b.vehicleId))).length = 1
    ∧ Real.sqrt (((calculateDistance s.realPositionX s.realPositionY
          b.positionX b.positionY).radicand : ℚ) : ℝ) =
        Real.sqrt (((b.positionX : ℝ) - (s.realPositionX : ℝ)) ^ 2
          + ((b.positionY : ℝ) - (s.realPositionY : ℝ)) ^ 2) := by
  have hacc2 : (calculateDistance s.realPositionX s.realPositionY
      b.positionX b.positionY).le s.communicationRange :=
    (withinReal_iff _ _ _ _ _).mp hacc
  have hwf2 := handleIncomingMessage_wf s now b hwf
  rw [handleIncomingMessage_accept s now b hacc2] at hwf2 ⊢
  dsimp only at hwf2 ⊢
  set info : ReceivedSpeedInfo :=
    { vehicleId := b.vehicleId
      speed := b.speed
      positionX := b.positionX
      positionY := b.positionY
      timestamp := now
      distance := calculateDistance s.realPositionX s.realPositionY
        b.positionX b.positionY } with hinfo
  have hfresh : ∀ e ∈ mapSet b.vehicleId info s.receivedSpeeds,
      e.1 = b.vehicleId → e = (b.vehicleId, info) :=
    fun e he hk => mapSet_entry_unique _ _ _ hwf e he hk
  have hfind : mapFind b.vehicleId
      (cleanLoop now (mapSet b.vehicleId info s.receivedSpeeds)) = some info := by
    rw [cleanLoop_eq_filter, mapFind_filter, mapFind_mapSet_self]
    intro e he hk
    rw [hfresh e he hk]
    simp [hinfo]
  refine ⟨hfind, ?_, ?_⟩
  · have hmem : (b.vehicleId, info) ∈
        cleanLoop now (mapSet b.vehicleId info s.receivedSpeeds) := by
      rw [cleanLoop_eq_filter, List.mem_filter]
      refine ⟨?_, by simp [hinfo]⟩
      exact mem_mapSet_self _ _ _
    rw [← List.countP_eq_length_filter]
    have hone := List.count_eq_one_of_mem (mapWF_nodup _ hwf2) hmem
    rw [← hone]
    unfold List.count
    apply List.countP_congr
    intro e he
    have he2 : e ∈ mapSet b.vehicleId info s.receivedSpeeds := by
      rw [cleanLoop_eq_filter] at he
      exact (List.mem_filter.mp he).1
    constructor
    · intro hk
      have hk2 : e.1 = b.vehicleId := of_decide_eq_true hk
      rw [hfresh e he2 hk2]
      exact decide_eq_true rfl
    · intro hk
      have hk2 : e = (b.vehicleId, info) := of_decide_eq_true hk
      rw [hk2]
      exact decide_eq_true rfl
  · simp [calculateDistance, sqrt]

/-- Witness for C4 (Scenario A): vehicle 2 at `(100, 0)` with range 300 and an
empty table receives the beacon of vehicle 1 at `(0, 0)`, speed 10; its table
then is the single record id 1, speed 10, distance `√10000 = 100`. -/
theorem handleIncomingMessage_accepted_record_witness :
    WithinReal vehicle2.realPositionX vehicle2.realPositionY (beacon1 0).positionX
        (beacon1 0).positionY vehicle2.communicationRange
    ∧ MapWF vehicle2.receivedSpeeds
    ∧ (mapFind (beacon1 0).vehicleId (handleIncomingMessage vehicle2 0 (beacon1 0)).receivedSpeeds =
        some { vehicleId := (beacon1 0).vehicleId
               speed := (beacon1 0).speed
               positionX := (beacon1 0).positionX
               positionY := (beacon1 0).positionY
               timestamp := 0
               distance := calculateDistance vehicle2.realPositionX vehicle2.realPositionY
                 (beacon1 0).positionX (beacon1 0).positionY }
      ∧ ((handleIncomingMessage vehicle2 0 (beacon1 0)).receivedSpeeds.filter
          (fun e => decide (e.1 = (beacon1 0).vehicleId))).length = 1
      ∧ Real.sqrt (((calculateDistance vehicle2.realPositionX vehicle2.realPositionY
            (beacon1 0).positionX (beacon1 0).positionY).radicand : ℚ) : ℝ) =
          Real.sqrt ((((beacon1 0).positionX : ℝ) - (vehicle2.realPositionX : ℝ)) ^ 2
            + (((beacon1 0).positionY : ℝ) - (vehicle2.realPositionY : ℝ)) ^ 2))
    ∧ (handleIncomingMessage vehicle2 0 (beacon1 0)).receivedSpeeds = [(1, record1 0 10000)]
    ∧ Real.sqrt (((record1 0 10000).distance.radicand : ℚ) : ℝ) = 100 := by
  have hacc : WithinReal vehicle2.realPositionX vehicle2.realPositionY (beacon1 0).positionX
      (beacon1 0).positionY vehicle2.communicationRange := by
    rw [withinReal_iff]
    norm_num [Root.le, sqrt, vehicle2, beacon1]
  have hwf : MapWF vehicle2.receivedSpeeds := by decide
  refine ⟨hacc, hwf, handleIncomingMessage_accepted_record vehicle2 0 (beacon1 0) hacc hwf,
    ?_, ?_⟩
  · simp [handleIncomingMessage, cleanOldReceivedSpeeds, cleanLoop, calculateDistance,
      vehicle2, beacon1, record1, sqrt, Root.le, mapSet]
    norm_num
  · have h : (((record1 0 10000).distance.radicand : ℚ) : ℝ) = (100 : ℝ) ^ 2 := by
      norm_num [record1, sqrt]
    rw [h]
    exact Real.sqrt_sq (by norm_num)

/-! ## C5: the mean delay recorded by `finish` -/

theorem handleIncomingMessage_config (s : VehicleApp) (now : ℚ) (b : VANETSpeedMessage) :
    (handleIncomingMessage s now b).realPositionX = s.realPositionX
    ∧ (handleIncomingMessage s now b).realPositionY = s.realPositionY
    ∧ (handleIncomingMessage s now b).communicationRange = s.communicationRange := by
  by_cases hacc : (calculateDistance s.realPositionX s.realPositionY
      b.positionX b.positionY).le s.communicationRange
  · rw [handleIncomingMessage_accept s now b hacc]
    exact ⟨rfl, rfl, rfl⟩
  · rw [handleIncomingMessage_reject s now b hacc]
    exact ⟨rfl, rfl, rfl⟩

theorem acceptedBy_congr (s t : VehicleApp) (evs : List (ℚ × VANETSpeedMessage))
    (hx : t.realPositionX = s.realPositionX) (hy : t.realPositionY = s.realPositionY)
    (hr : t.communicationRange = s.communicationRange) :
    acceptedBy t evs = acceptedBy s evs := by
  simp [acceptedBy, hx, hy, hr]

theorem mem_acceptedBy_iff (s : VehicleApp) (evs : List (ℚ × VANETSpeedMessage))
    (e : ℚ × VANETSpeedMessage) :
    e ∈ acceptedBy s evs ↔
      e ∈ evs ∧ WithinReal s.realPositionX s.realPositionY e.2.positionX e.2.positionY
        s.communicationRange := by
  simp [acceptedBy, withinReal_iff, calculateDistance]

theorem receiveAll_statistics (s : VehicleApp) (evs : List (ℚ × VANETSpeedMessage)) :
    (receiveAll s evs).packetsReceived = s.packetsReceived + ((acceptedBy s evs).length : Int)
    ∧ (receiveAll s evs).totalDelay =
        s.totalDelay + ((acceptedBy s evs).map (fun e => e.1 - e.2.timestamp)).sum := by
  induction evs generalizing s with
  | nil => simp [receiveAll, acceptedBy]
  | cons e rest ih =>
    obtain ⟨now, b⟩ := e
    obtain ⟨hx, hy, hr⟩ := handleIncomingMessage_config s now b
    have ih2 := ih (handleIncomingMessage s now b)
    rw [acceptedBy_congr s _ rest hx hy hr] at ih2
    simp only [receiveAll]
    by_cases hacc : (calculateDistance s.realPositionX s.realPositionY
        b.positionX b.positionY).le s.communicationRange
    · have hcons : acceptedBy s ((now, b) :: rest) = (now, b) :: acceptedBy s rest := by
        simp [acceptedBy, List.filter_cons, hacc]
      rw [hcons, ih2.1, ih2.2, handleIncomingMessage_accept s now b hacc]
      simp only [List.length_cons, List.map_cons, List.sum_cons]
      constructor
      · push_cast; ring
      · ring
    · have hcons : acceptedBy s ((now, b) :: rest) = acceptedBy s rest := by
        simp [acceptedBy, List.filter_cons, hacc]
      rw [hcons, ih2.1, ih2.2, handleIncomingMessage_reject s now b hacc]
      exact ⟨rfl, rfl⟩

/-- C5: from a state with zeroed statistics, after any sequence of receive
events the `averageDelay` of `finish` is the arithmetic mean of
`receive time - beacon timestamp` over the accepted beacons of the sequence
(negative differences included as they are), and 0 when none was accepted. -/
theorem finish_averageDelay_is_mean (s : VehicleApp) (evs : List (ℚ × VANETSpeedMessage))
    (now : ℚ) (hcount : s.packetsReceived = 0) (hdelay : s.totalDelay = 0) :
    (finish (receiveAll s evs) now).averageDelay =
      if acceptedBy s evs = [] then 0
      else ((acceptedBy s evs).map (fun e => e.1 - e.2.timestamp)).sum
        / ((acceptedBy s evs).length : ℚ) := by
  obtain ⟨h1, h2⟩ := receiveAll_statistics s evs
  simp only [finish, h1, h2, hcount, hdelay, zero_add]
  by_cases hnil : acceptedBy s evs = []
  · simp [hnil]
  · have hpos : (0 : Int) < ((acceptedBy s evs).length : Int) := by
      have := List.length_pos.mpr hnil
      exact_mod_cast this
    simp [hnil, hpos]

/-- Witness for C5: vehicle 2 accepts the beacon of vehicle 1 with delays 2
and -3 and rejects a beacon from `(500, 0)`; the recorded mean is `-1/2`. -/
theorem finish_averageDelay_is_mean_witness :
    vehicle2.packetsReceived = 0 ∧ vehicle2.totalDelay = 0
    ∧ (finish (receiveAll vehicle2 [(3, beacon1 1), (4, beacon3 500 0), (4, beacon1 7)])
          60).averageDelay =
        (if acceptedBy vehicle2 [(3, beacon1 1), (4, beacon3 500 0), (4, beacon1 7)] = [] then 0
         else ((acceptedBy vehicle2 [(3, beacon1 1), (4, beacon3 500 0), (4, beacon1 7)]).map
              (fun e => e.1 - e.2.timestamp)).sum
            / ((acceptedBy vehicle2
                [(3, beacon1 1), (4, beacon3 500 0), (4, beacon1 7)]).length : ℚ))
    ∧ acceptedBy vehicle2 [(3, beacon1 1), (4, beacon3 500 0), (4, beacon1 7)] =
        [(3, beacon1 1), (4, beacon1 7)]
    ∧ (finish (receiveAll vehicle2 [(3, beacon1 1), (4, beacon3 500 0), (4, beacon1 7)])
          60).averageDelay = -1 / 2 := by
  have h := finish_averageDelay_is_mean vehicle2
    [(3, beacon1 1), (4, beacon3 500 0), (4, beacon1 7)] 60 rfl rfl
  have hacc : acceptedBy vehicle2 [(3, beacon1 1), (4, beacon3 500 0), (4, beacon1 7)] =
      [(3, beacon1 1), (4, beacon1 7)] := by
    simp [acceptedBy, List.filter_cons, calculateDistance, sqrt, Root.le, vehicle2, beacon1,
      beacon3]
    norm_num
  refine ⟨rfl, rfl, h, hacc, ?_⟩
  rw [h, hacc, if_neg (List.cons_ne_nil _ _)]
  norm_num [beacon1]

/-! ## C6: the received counter of the ns-3 host -/

theorem handlePacket_counts_every_packet (s : VANETSpeedApp) (now : ℚ) (packet : Packet)
    (hsize : 0 < packet.size) :
    (handlePacket s now packet).m_packetsReceived = (s.m_packetsReceived + 1) % 2 ^ 32 := by
  by_cases hacc : (sqrt ((packet.header.m_positionX - s.m_positionX) ^ 2
        + (packet.header.m_positionY - s.m_positionY) ^ 2)).le 300
      ∧ packet.header.m_vehicleId ≠ s.m_vehicleId
  · rw [handlePacket_accept s now packet hsize hacc]
  · rw [handlePacket_reject s now packet hsize hacc]

/-- C6, evaluated: `HandleRead` of the agent with id 0 at the origin counts a
packet from a sender at distance 400 and a packet that carries the agent's own
id, although the proximity filter rejects both and nothing is recorded. -/
theorem HandleRead_counts_rejected_packets :
    ¬ WithinReal ns3Vehicle0.m_positionX ns3Vehicle0.m_positionY
        (ns3Packet 1 400).header.m_positionX (ns3Packet 1 400).header.m_positionY 300
    ∧ ns3Vehicle0.m_packetsReceived = 0
    ∧ (HandleRead ns3Vehicle0 7 [ns3Packet 1 400]).m_packetsReceived = 1
    ∧ (HandleRead ns3Vehicle0 7 [ns3Packet 1 400]).m_receivedSpeeds = []
    ∧ (ns3Packet 0 10).header.m_vehicleId = ns3Vehicle0.m_vehicleId
    ∧ (HandleRead ns3Vehicle0 7 [ns3Packet 0 10]).m_packetsReceived = 1
    ∧ (HandleRead ns3Vehicle0 7 [ns3Packet 0 10]).m_receivedSpeeds = [] := by
  refine ⟨?_, rfl, ?_, ?_, rfl, ?_, ?_⟩
  · rw [withinReal_iff]
    norm_num [Root.le, sqrt, ns3Vehicle0, ns3Packet, Setup]
  all_goals
    simp [HandleRead, handlePacket, ns3Vehicle0, ns3Packet, Setup, sqrt, Root.le, mapSet,
      evictLoop]
  all_goals norm_num

/-! ## C7: when the OMNeT++ host sweeps its table -/

/-- C7, evaluated (Scenario C with a rejected beacon): vehicle 2 holds the
record of vehicle 1 written at time 10; `handleIncomingMessage` on a beacon
from `(500, 0)`, out of range, received at time 16 does not sweep the table,
and that record, of age 6, is still in it. -/
theorem handleIncomingMessage_rejected_keeps_stale :
    ¬ WithinReal vehicle2At10.realPositionX vehicle2At10.realPositionY
        (beacon3 500 16).positionX (beacon3 500 16).positionY vehicle2At10.communicationRange
    ∧ vehicle2At10.receivedSpeeds = [(1, record1 10 10000)]
    ∧ (handleIncomingMessage vehicle2At10 16 (beacon3 500 16)).receivedSpeeds =
        [(1, record1 10 10000)]
    ∧ (16 : ℚ) - (record1 10 10000).timestamp > 5 := by
  have hstate : vehicle2At10 = { vehicle2 with
      packetsReceived := 1, totalDelay := 0, receivedSpeeds := [(1, record1 10 10000)] } := by
    simp [vehicle2At10, handleIncomingMessage, cleanOldReceivedSpeeds, cleanLoop,
      calculateDistance, vehicle2, beacon1, record1, sqrt, Root.le, mapSet]
    norm_num
  refine ⟨?_, ?_, ?_, ?_⟩
  · rw [withinReal_iff, hstate]
    norm_num [Root.le, sqrt, vehicle2, beacon3]
  · rw [hstate]
  · rw [hstate]
    simp [handleIncomingMessage, calculateDistance, vehicle2, beacon3, sqrt, Root.le]
    norm_num
  · norm_num [record1]

/-- Where `handleIncomingMessage` sweeps: after an accepted beacon (real
distance within `communicationRange`) the table has no record with
`now - timestamp > 5`; on a rejected beacon the call returns the agent state
as it was, so the sweep has not run. -/
theorem handleIncomingMessage_sweeps_iff_accepted (s : VehicleApp) (now : ℚ)
    (b : VANETSpeedMessage) :
    (WithinReal s.realPositionX s.realPositionY b.positionX b.positionY s.communicationRange →
      ∀ e ∈ (handleIncomingMessage s now b).receivedSpeeds, ¬ (now - e.2.timestamp > 5))
    ∧ (¬ WithinReal s.realPositionX s.realPositionY b.positionX b.positionY
          s.communicationRange →
      handleIncomingMessage s now b = s) := by
  constructor
  · intro hacc e he
    rw [withinReal_iff] at hacc
    rw [handleIncomingMessage_accept s now b hacc] at he
    dsimp only at he
    rw [cleanLoop_eq_filter, List.mem_filter] at he
    have h := he.2
    simp only [decide_eq_true_eq] at h
    exact not_lt.mpr h
  · intro hrej
    rw [withinReal_iff] at hrej
    exact handleIncomingMessage_reject s now b hrej

/-- Scenario C with an accepted beacon: after vehicle 2 accepts a beacon of
vehicle 3 from `(200, 0)` at time 16, the record of vehicle 1 written at
time 10 is gone and the one record left is fresh. -/
theorem handleIncomingMessage_sweeps_iff_accepted_witness :
    WithinReal vehicle2At10.realPositionX vehicle2At10.realPositionY
        (beacon3 200 16).positionX (beacon3 200 16).positionY vehicle2At10.communicationRange
    ∧ (handleIncomingMessage vehicle2At10 16 (beacon3 200 16)).receivedSpeeds =
        [(3, record3 200 16 10000)]
    ∧ ¬ ((16 : ℚ) - (record3 200 16 10000).timestamp > 5) := by
  have hstate : vehicle2At10 = { vehicle2 with
      packetsReceived := 1, totalDelay := 0, receivedSpeeds := [(1, record1 10 10000)] } := by
    simp [vehicle2At10, handleIncomingMessage, cleanOldReceivedSpeeds, cleanLoop,
      calculateDistance, vehicle2, beacon1, record1, sqrt, Root.le, mapSet]
    norm_num
  have hacc : WithinReal vehicle2At10.realPositionX vehicle2At10.realPositionY
      (beacon3 200 16).positionX (beacon3 200 16).positionY
      vehicle2At10.communicationRange := by
    rw [withinReal_iff, hstate]
    norm_num [Root.le, sqrt, vehicle2, beacon3]
  have htable : (handleIncomingMessage vehicle2At10 16 (beacon3 200 16)).receivedSpeeds =
      [(3, record3 200 16 10000)] := by
    rw [hstate]
    simp [handleIncomingMessage, cleanOldReceivedSpeeds, cleanLoop, calculateDistance,
      vehicle2, beacon3, record1, record3, sqrt, Root.le, mapSet]
    norm_num
  refine ⟨hacc, htable,
    (handleIncomingMessage_sweeps_iff_accepted vehicle2At10 16 (beacon3 200 16)).1 hacc
      (3, record3 200 16 10000) ?_⟩
  rw [htable]
  exact List.mem_singleton.mpr rfl

/-- The handler of the ns-3 host on the same scenario: the agent records
vehicle 1 at time 10; a packet from `(500, 0)`, out of range, received at
time 16 is rejected, and the sweep that follows the filter still removes the
record of age 6 from both maps. -/
theorem HandleRead_rejected_still_sweeps :
    (HandleRead ns3Vehicle0 10 [ns3Packet 1 100]).m_receivedSpeeds = [(1, 10)]
    ∧ (HandleRead ns3Vehicle0 10 [ns3Packet 1 100]).m_lastReceived = [(1, 10)]
    ∧ ¬ WithinReal (HandleRead ns3Vehicle0 10 [ns3Packet 1 100]).m_positionX
        (HandleRead ns3Vehicle0 10 [ns3Packet 1 100]).m_positionY
        (ns3Packet 3 500).header.m_positionX (ns3Packet 3 500).header.m_positionY 300
    ∧ (HandleRead (HandleRead ns3Vehicle0 10 [ns3Packet 1 100]) 16
        [ns3Packet 3 500]).m_receivedSpeeds = []
    ∧ (HandleRead (HandleRead ns3Vehicle0 10 [ns3Packet 1 100]) 16
        [ns3Packet 3 500]).m_lastReceived = [] := by
  have hstate : HandleRead ns3Vehicle0 10 [ns3Packet 1 100] =
      { ns3Vehicle0 with
        m_packetsReceived := 1, m_receivedSpeeds := [(1, 10)], m_lastReceived := [(1, 10)] } := by
    simp [HandleRead, handlePacket, ns3Vehicle0, ns3Packet, Setup, sqrt, Root.le, mapSet,
      evictLoop]
    norm_num
  refine ⟨by rw [hstate], by rw [hstate], ?_, ?_, ?_⟩
  · rw [withinReal_iff, hstate]
    norm_num [Root.le, sqrt, ns3Vehicle0, ns3Packet, Setup]
  · rw [hstate]
    simp [HandleRead, handlePacket, ns3Vehicle0, ns3Packet, Setup, sqrt, Root.le, mapSet,
      mapErase, evictLoop]
    norm_num [evictLoop, mapErase]
  · rw [hstate]
    simp [HandleRead, handlePacket, ns3Vehicle0, ns3Packet, Setup, sqrt, Root.le, mapSet,
      mapErase, evictLoop]
    norm_num [evictLoop, mapErase]

/-! ## C8: a position feed without the agent's key -/

theorem SendSpeedMessage_frame (s : VANETSpeedApp) (now : ℚ) (file : PositionFeed) :
    (SendSpeedMessage s now file).1.m_speed = (LoadOpenCVData s file).m_speed
    ∧ (SendSpeedMessage s now file).1.m_positionX = (LoadOpenCVData s file).m_positionX
    ∧ (SendSpeedMessage s now file).1.m_positionY = (LoadOpenCVData s file).m_positionY
    ∧ (SendSpeedMessage s now file).1.m_packetsReceived
        = (LoadOpenCVData s file).m_packetsReceived
    ∧ (SendSpeedMessage s now file).1.m_receivedSpeeds
        = (LoadOpenCVData s file).m_receivedSpeeds
    ∧ (SendSpeedMessage s now file).1.m_lastReceived = (LoadOpenCVData s file).m_lastReceived
    ∧ (SendSpeedMessage s now file).1.m_running = (LoadOpenCVData s file).m_running
    ∧ (SendSpeedMessage s now file).1.m_packetsSent
        = ((LoadOpenCVData s file).m_packetsSent + 1) % 2 ^ 32 := by
  unfold SendSpeedMessage ScheduleTx
  dsimp only
  split_ifs
  all_goals exact ⟨rfl, rfl, rfl, rfl, rfl, rfl, rfl, rfl⟩

theorem LoadOpenCVData_frame (s : VANETSpeedApp) (file : PositionFeed) :
    (LoadOpenCVData s file).m_packetsReceived = s.m_packetsReceived
    ∧ (LoadOpenCVData s file).m_receivedSpeeds = s.m_receivedSpeeds
    ∧ (LoadOpenCVData s file).m_lastReceived = s.m_lastReceived
    ∧ (LoadOpenCVData s file).m_running = s.m_running
    ∧ (LoadOpenCVData s file).m_packetsSent = s.m_packetsSent
    ∧ (LoadOpenCVData s file).m_sendEvent = s.m_sendEvent := by
  cases file with
  | none => exact ⟨rfl, rfl, rfl, rfl, rfl, rfl⟩
  | some root =>
    unfold LoadOpenCVData
    dsimp only
    cases feedMember ("vehicle_" ++ toString s.m_vehicleId) root with
    | none => exact ⟨rfl, rfl, rfl, rfl, rfl, rfl⟩
    | some vehicleData => exact ⟨rfl, rfl, rfl, rfl, rfl, rfl⟩

/-- C8 fails as stated: vehicle 2 has speed 20 at `(100, 0)` from an earlier
read; a feed that parses and has no member `vehicle_2` leaves these values,
it does not zero them. -/
theorem loadRealTimeData_missing_key_not_zero :
    feedMember ("vehicle_" ++ toString vehicle2.vehicleId) feedOfVehicle1 = none
    ∧ (loadRealTimeData vehicle2 (some feedOfVehicle1)).realSpeed = 20
    ∧ (loadRealTimeData vehicle2 (some feedOfVehicle1)).realPositionX = 100
    ∧ (loadRealTimeData vehicle2 (some feedOfVehicle1)).realPositionY = 0
    ∧ (sendSpeedMessage vehicle2 5 (some feedOfVehicle1)).1.realSpeed ≠ 0 := by
  have hkey : feedMember ("vehicle_" ++ toString vehicle2.vehicleId) feedOfVehicle1 = none := by
    decide
  have hload : loadRealTimeData vehicle2 (some feedOfVehicle1) = vehicle2 := by
    simp only [loadRealTimeData, hkey]
  refine ⟨hkey, ?_, ?_, ?_, ?_⟩
  · rw [hload]; rfl
  · rw [hload]; rfl
  · rw [hload]; rfl
  · simp only [sendSpeedMessage, hload]
    norm_num [vehicle2]

/-- C8, amended: when the feed parses and has no member for the agent's id,
the feed load returns normally and leaves the agent state as it was, in both
hosts, so a send tick keeps the speed and position of the last read; the
values are 0 when the agent is still in its initialised state. -/
theorem load_missing_key_keeps_state (s : VehicleApp) (a : VANETSpeedApp)
    (root : List (String × VehicleData)) (now : ℚ)
    (hs : feedMember ("vehicle_" ++ toString s.vehicleId) root = none)
    (ha : feedMember ("vehicle_" ++ toString a.m_vehicleId) root = none) :
    loadRealTimeData s (some root) = s
    ∧ LoadOpenCVData a (some root) = a
    ∧ (sendSpeedMessage s now (some root)).1.realSpeed = s.realSpeed
    ∧ (sendSpeedMessage s now (some root)).1.realPositionX = s.realPositionX
    ∧ (sendSpeedMessage s now (some root)).1.realPositionY = s.realPositionY
    ∧ (SendSpeedMessage a now (some root)).1.m_speed = a.m_speed
    ∧ (SendSpeedMessage a now (some root)).1.m_positionX = a.m_positionX
    ∧ (SendSpeedMessage a now (some root)).1.m_positionY = a.m_positionY
    ∧ (∀ p : VehicleParams, p.vehicleId = s.vehicleId →
        (initApp p (some root)).realSpeed = 0
        ∧ (initApp p (some root)).realPositionX = 0
        ∧ (initApp p (some root)).realPositionY = 0) := by
  have h1 : loadRealTimeData s (some root) = s := by
    simp only [loadRealTimeData, hs]
  have h2 : LoadOpenCVData a (some root) = a := by
    simp only [LoadOpenCVData, ha]
  refine ⟨h1, h2, ?_, ?_, ?_, ?_, ?_, ?_, ?_⟩
  · unfold sendSpeedMessage; rw [h1]; split_ifs <;> rfl
  · unfold sendSpeedMessage; rw [h1]; split_ifs <;> rfl
  · unfold sendSpeedMessage; rw [h1]; split_ifs <;> rfl
  · rw [(SendSpeedMessage_frame a now (some root)).1, h2]
  · rw [(SendSpeedMessage_frame a now (some root)).2.1, h2]
  · rw [(SendSpeedMessage_frame a now (some root)).2.2.1, h2]
  · intro p hp
    rw [← hp] at hs
    simp only [initApp, loadRealTimeData, hs]
    exact ⟨trivial, trivial, trivial⟩

/-- Witness for C8 as amended: vehicle 2 and the ns-3 agent 0 read a feed that
has an entry for vehicle 1 only; vehicle 2 keeps speed 20 at `(100, 0)`. -/
theorem load_missing_key_keeps_state_witness :
    feedMember ("vehicle_" ++ toString vehicle2.vehicleId) feedOfVehicle1 = none
    ∧ feedMember ("vehicle_" ++ toString ns3Vehicle0.m_vehicleId) feedOfVehicle1 = none
    ∧ loadRealTimeData vehicle2 (some feedOfVehicle1) = vehicle2
    ∧ LoadOpenCVData ns3Vehicle0 (some feedOfVehicle1) = ns3Vehicle0
    ∧ (sendSpeedMessage vehicle2 5 (some feedOfVehicle1)).1.realSpeed = 20
    ∧ (initApp params2 (some feedOfVehicle1)).realSpeed = 0 := by
  have h := load_missing_key_keeps_state vehicle2 ns3Vehicle0 feedOfVehicle1 5
    (by decide) (by decide)
  exact ⟨by decide, by decide, h.1, h.2.1, h.2.2.1, (h.2.2.2.2.2.2.2.2 params2 rfl).1⟩

/-! ## C9: events of the ns-3 host while it is stopped -/

/-- C9 fails as stated: the agent as set up, not yet started
(`m_running = false`), handles a packet from vehicle 1 at distance 100 and
records it, and a send event is counted. -/
theorem stopped_agent_still_handles_events :
    ns3Vehicle0.m_running = false
    ∧ (HandleRead ns3Vehicle0 7 [ns3Packet 1 100]).m_packetsReceived = 1
    ∧ (HandleRead ns3Vehicle0 7 [ns3Packet 1 100]).m_receivedSpeeds = [(1, 10)]
    ∧ (HandleRead ns3Vehicle0 7 [ns3Packet 1 100]).m_lastReceived = [(1, 7)]
    ∧ ns3Vehicle0.m_packetsSent = 0
    ∧ (SendSpeedMessage ns3Vehicle0 7 none).1.m_packetsSent = 1 := by
  refine ⟨rfl, ?_, ?_, ?_, rfl, ?_⟩
  · simp [HandleRead, handlePacket, ns3Vehicle0, ns3Packet, Setup, sqrt, Root.le, mapSet,
      evictLoop]
    norm_num
  · simp [HandleRead, handlePacket, ns3Vehicle0, ns3Packet, Setup, sqrt, Root.le, mapSet,
      evictLoop]
    norm_num
  · simp [HandleRead, handlePacket, ns3Vehicle0, ns3Packet, Setup, sqrt, Root.le, mapSet,
      evictLoop]
    norm_num
  · simp [SendSpeedMessage, LoadOpenCVData, ScheduleTx, ns3Vehicle0, Setup]

theorem handlePacket_running (s : VANETSpeedApp) (now : ℚ) (packet : Packet) (r : Bool) :
    handlePacket { s with m_running := r } now packet =
      { handlePacket s now packet with m_running := r } := by
  unfold handlePacket
  dsimp only
  split_ifs <;> rfl

theorem HandleRead_running (s : VANETSpeedApp) (now : ℚ) (queue : List Packet) (r : Bool) :
    HandleRead { s with m_running := r } now queue =
      { HandleRead s now queue with m_running := r } := by
  induction queue generalizing s with
  | nil => rfl
  | cons packet rest ih =>
    simp only [HandleRead]
    rw [handlePacket_running, ih]

theorem handlePacket_sendEvent (s : VANETSpeedApp) (now : ℚ) (packet : Packet) :
    (handlePacket s now packet).m_sendEvent = s.m_sendEvent := by
  unfold handlePacket
  dsimp only
  split_ifs <;> rfl

theorem HandleRead_sendEvent (s : VANETSpeedApp) (now : ℚ) (queue : List Packet) :
    (HandleRead s now queue).m_sendEvent = s.m_sendEvent := by
  induction queue generalizing s with
  | nil => rfl
  | cons packet rest ih =>
    simp only [HandleRead]
    rw [ih, handlePacket_sendEvent]

/-- C9, amended: with `m_running = false`, `SendSpeedMessage` leaves
`m_packetsReceived`, `m_receivedSpeeds` and `m_lastReceived` unchanged and
schedules no further send, and `HandleRead` schedules no send; neither handler
tests `m_running` itself: `SendSpeedMessage` still counts the send, and
`HandleRead` handles the queued packets exactly as a running agent does.
`StopApplication` clears `m_running` and cancels the pending send event. -/
theorem stopped_agent_frame (s : VANETSpeedApp) (now : ℚ) (file : PositionFeed)
    (queue : List Packet) (hstop : s.m_running = false) :
    (SendSpeedMessage s now file).1.m_packetsReceived = s.m_packetsReceived
    ∧ (SendSpeedMessage s now file).1.m_receivedSpeeds = s.m_receivedSpeeds
    ∧ (SendSpeedMessage s now file).1.m_lastReceived = s.m_lastReceived
    ∧ (SendSpeedMessage s now file).1.m_sendEvent = s.m_sendEvent
    ∧ (SendSpeedMessage s now file).1.m_packetsSent = (s.m_packetsSent + 1) % 2 ^ 32
    ∧ (HandleRead s now queue).m_sendEvent = s.m_sendEvent
    ∧ HandleRead s now queue =
        { HandleRead { s with m_running := true } now queue with m_running := false }
    ∧ (StopApplication (StartApplication s now)).m_running = false
    ∧ (StopApplication (StartApplication s now)).m_sendEvent = none := by
  obtain ⟨-, -, -, h4, h5, h6, h7, h8⟩ := SendSpeedMessage_frame s now file
  obtain ⟨l1, l2, l3, l4, l5, l6⟩ := LoadOpenCVData_frame s file
  refine ⟨by rw [h4, l1], by rw [h5, l2], by rw [h6, l3], ?_, by rw [h8, l5],
    HandleRead_sendEvent s now queue, ?_, rfl, rfl⟩
  · have hrun : (LoadOpenCVData s file).m_running = false := by rw [l4, hstop]
    unfold SendSpeedMessage ScheduleTx
    dsimp only
    rw [hrun]
    simp only [Bool.false_eq_true, if_false, ite_self]
    exact l6
  · rw [HandleRead_running s now queue true]
    have hr : (HandleRead s now queue).m_running = false := by
      have h := HandleRead_running s now queue false
      have hs : { s with m_running := false } = s := by
        cases s
        simp only at hstop
        simp [hstop]
      rw [hs] at h
      rw [h]
    cases hq : HandleRead s now queue with
    | mk a1 a2 a3 a4 a5 a6 a7 a8 a9 a10 a11 a12 a13 =>
      rw [hq] at hr
      simp only at hr
      simp [hr]

/-- Witness for C9 as amended: the agent as set up, not yet started. -/
theorem stopped_agent_frame_witness :
    ns3Vehicle0.m_running = false
    ∧ (SendSpeedMessage ns3Vehicle0 7 none).1.m_packetsReceived = ns3Vehicle0.m_packetsReceived
    ∧ (SendSpeedMessage ns3Vehicle0 7 none).1.m_sendEvent = ns3Vehicle0.m_sendEvent
    ∧ (HandleRead ns3Vehicle0 7 [ns3Packet 1 100]).m_sendEvent = ns3Vehicle0.m_sendEvent :=
  ⟨rfl, (stopped_agent_frame ns3Vehicle0 7 none [ns3Packet 1 100] rfl).1,
    (stopped_agent_frame ns3Vehicle0 7 none [ns3Packet 1 100] rfl).2.2.2.1,
    (stopped_agent_frame ns3Vehicle0 7 none [ns3Packet 1 100] rfl).2.2.2.2.2.1⟩

/-! ## C10: one record per neighbor id -/

theorem mapSet_length_of_mem {K V : Type} [LinearOrder K] (k : K) (v : V) (m : List (K × V))
    (hwf : MapWF m) (hk : k ∈ mapKeys m) : (mapSet k v m).length = m.length := by
  induction m with
  | nil => simp [mapKeys] at hk
  | cons e rest ih =>
    obtain ⟨k1, v1⟩ := e
    have hrest : MapWF rest := by
      simp only [MapWF, mapKeys, List.map_cons, List.pairwise_cons] at hwf
      exact hwf.2
    have hhead : ∀ a ∈ mapKeys rest, k1 < a := by
      simp only [MapWF, mapKeys, List.map_cons, List.pairwise_cons] at hwf
      exact hwf.1
    have hk2 : k = k1 ∨ k ∈ mapKeys rest := by
      simpa [mapKeys] using hk
    simp only [mapSet]
    split_ifs with h1 h2
    · rcases hk2 with h | h
      · exact absurd h (ne_of_lt h1)
      · exact absurd (lt_trans h1 (hhead k h)) (lt_irrefl k)
    · simp
    · rcases hk2 with h | h
      · exact absurd h h2
      · simp [ih hrest h]

theorem cleanLoop_length_le (now : ℚ) (m : List (Int × ReceivedSpeedInfo)) :
    (cleanLoop now m).length ≤ m.length := by
  rw [cleanLoop_eq_filter]
  exact List.length_filter_le _ _

theorem handleIncomingMessage_keys (s : VehicleApp) (now : ℚ) (b : VANETSpeedMessage)
    (k : Int) (hk : k ∈ mapKeys (handleIncomingMessage s now b).receivedSpeeds) :
    k ∈ mapKeys s.receivedSpeeds
      ∨ k ∈ (acceptedBy s [(now, b)]).map (fun e => e.2.vehicleId) := by
  by_cases hacc : (calculateDistance s.realPositionX s.realPositionY
      b.positionX b.positionY).le s.communicationRange
  · rw [handleIncomingMessage_accept s now b hacc] at hk
    dsimp only at hk
    simp only [mapKeys, List.mem_map] at hk
    obtain ⟨e, he, rfl⟩ := hk
    rw [cleanLoop_eq_filter] at he
    rcases mem_mapSet _ _ _ e (List.mem_filter.mp he).1 with h | h
    · right
      simp [acceptedBy, List.filter_cons, hacc, h]
    · left
      exact List.mem_map.mpr ⟨e, h, rfl⟩
  · rw [handleIncomingMessage_reject s now b hacc] at hk
    exact Or.inl hk

theorem receiveAll_wf (s : VehicleApp) (evs : List (ℚ × VANETSpeedMessage))
    (hwf : MapWF s.receivedSpeeds) : MapWF (receiveAll s evs).receivedSpeeds := by
  induction evs generalizing s with
  | nil => exact hwf
  | cons e rest ih =>
    obtain ⟨now, b⟩ := e
    exact ih _ (handleIncomingMessage_wf s now b hwf)

theorem receiveAll_keys (s : VehicleApp) (evs : List (ℚ × VANETSpeedMessage)) (k : Int)
    (hk : k ∈ mapKeys (receiveAll s evs).receivedSpeeds) :
    k ∈ mapKeys s.receivedSpeeds
      ∨ k ∈ (acceptedBy s evs).map (fun e => e.2.vehicleId) := by
  induction evs generalizing s with
  | nil => exact Or.inl hk
  | cons e rest ih =>
    obtain ⟨now, b⟩ := e
    obtain ⟨hx, hy, hr⟩ := handleIncomingMessage_config s now b
    have hsplit : acceptedBy s ((now, b) :: rest) = acceptedBy s [(now, b)] ++ acceptedBy s rest := by
      simp only [acceptedBy]
      rw [← List.filter_append]
      rfl
    rcases ih (handleIncomingMessage s now b) hk with h | h
    · rcases handleIncomingMessage_keys s now b k h with h2 | h2
      · exact Or.inl h2
      · right
        rw [hsplit, List.map_append]
        exact List.mem_append_left _ h2
    · right
      rw [acceptedBy_congr s _ rest hx hy hr] at h
      rw [hsplit, List.map_append]
      exact List.mem_append_right _ h

/-- C10: from an empty table, after any sequence of receive events the
neighbor table holds no two records with the same vehicle id, and its size is
at most the number of distinct sender ids among the accepted beacons; a
further accepted beacon from an id already in the table does not grow the
table, and the record under that id becomes the one of the new beacon. -/
theorem receiveAll_one_record_per_id (s : VehicleApp) (evs : List (ℚ × VANETSpeedMessage))
    (hempty : s.receivedSpeeds = []) :
    (mapKeys (receiveAll s evs).receivedSpeeds).Nodup
    ∧ (receiveAll s evs).receivedSpeeds.length ≤
        (((acceptedBy s evs).map (fun e => e.2.vehicleId)).dedup).length
    ∧ (∀ (now : ℚ) (b : VANETSpeedMessage),
        WithinReal s.realPositionX s.realPositionY b.positionX b.positionY
          s.communicationRange →
        b.vehicleId ∈ mapKeys (receiveAll s evs).receivedSpeeds →
        (receiveAll s (evs ++ [(now, b)])).receivedSpeeds.length ≤
            (receiveAll s evs).receivedSpeeds.length
          ∧ mapFind b.vehicleId (receiveAll s (evs ++ [(now, b)])).receivedSpeeds =
            some { vehicleId := b.vehicleId
                   speed := b.speed
                   positionX := b.positionX
                   positionY := b.positionY
                   timestamp := now
                   distance := calculateDistance s.realPositionX s.realPositionY
                     b.positionX b.positionY }) := by
  have hwf0 : MapWF s.receivedSpeeds := by
    rw [hempty]; simp [MapWF, mapKeys]
  have hwf := receiveAll_wf s evs hwf0
  have hnodup : (mapKeys (receiveAll s evs).receivedSpeeds).Nodup :=
    List.Pairwise.imp (fun hab => ne_of_lt hab) hwf
  refine ⟨hnodup, ?_, ?_⟩
  · have hsub : (mapKeys (receiveAll s evs).receivedSpeeds).toFinset ⊆
        ((acceptedBy s evs).map (fun e => e.2.vehicleId)).toFinset := by
      intro k hk
      rw [List.mem_toFinset] at hk ⊢
      rcases receiveAll_keys s evs k hk with h | h
      · rw [hempty] at h
        simp [mapKeys] at h
      · exact h
    have hcard := Finset.card_le_card hsub
    rw [List.toFinset_card_of_nodup hnodup, List.card_toFinset] at hcard
    simpa [mapKeys] using hcard
  · intro now b hacc hk
    have hstep : ∀ (t : VehicleApp) (l : List (ℚ × VANETSpeedMessage)) (e : ℚ × VANETSpeedMessage),
        receiveAll t (l ++ [e]) = handleIncomingMessage (receiveAll t l) e.1 e.2 := by
      intro t l e
      induction l generalizing t with
      | nil => rfl
      | cons a rest ih =>
        obtain ⟨n1, b1⟩ := a
        simp only [List.cons_append, receiveAll]
        exact ih _
    have hconf : ∀ (t : VehicleApp) (l : List (ℚ × VANETSpeedMessage)),
        (receiveAll t l).realPositionX = t.realPositionX
        ∧ (receiveAll t l).realPositionY = t.realPositionY
        ∧ (receiveAll t l).communicationRange = t.communicationRange := by
      intro t l
      induction l generalizing t with
      | nil => exact ⟨rfl, rfl, rfl⟩
      | cons a rest ih =>
        obtain ⟨n1, b1⟩ := a
        obtain ⟨hx, hy, hr⟩ := handleIncomingMessage_config t n1 b1
        obtain ⟨ix, iy, ir⟩ := ih (handleIncomingMessage t n1 b1)
        simp only [receiveAll]
        exact ⟨ix.trans hx, iy.trans hy, ir.trans hr⟩
    obtain ⟨cx, cy, cr⟩ := hconf s evs
    have hle : (calculateDistance s.realPositionX s.realPositionY
        b.positionX b.positionY).le s.communicationRange :=
      (withinReal_iff _ _ _ _ _).mp hacc
    have hle2 : (calculateDistance (receiveAll s evs).realPositionX
        (receiveAll s evs).realPositionY b.positionX b.positionY).le
        (receiveAll s evs).communicationRange := by
      rw [cx, cy, cr]; exact hle
    rw [hstep s evs (now, b)]
    constructor
    · rw [handleIncomingMessage_accept _ now b hle2]
      dsimp only
      refine le_trans (cleanLoop_length_le now _) ?_
      rw [mapSet_length_of_mem _ _ _ hwf hk]
    · rw [mapFind_handleIncomingMessage_accept (receiveAll s evs) now b hle2 hwf, cx, cy]

/-- Witness for C10: vehicle 2 accepts beacons of vehicle 1, of vehicle 3 and
of vehicle 1 again; its table then holds two records, one per id. -/
theorem receiveAll_one_record_per_id_witness :
    vehicle2.receivedSpeeds = []
    ∧ (mapKeys (receiveAll vehicle2
        [(1, beacon1 0), (2, beacon3 200 1), (3, beacon1 2)]).receivedSpeeds).Nodup
    ∧ (receiveAll vehicle2
        [(1, beacon1 0), (2, beacon3 200 1), (3, beacon1 2)]).receivedSpeeds.length ≤
        (((acceptedBy vehicle2 [(1, beacon1 0), (2, beacon3 200 1), (3, beacon1 2)]).map
          (fun e => e.2.vehicleId)).dedup).length
    ∧ (receiveAll vehicle2
        [(1, beacon1 0), (2, beacon3 200 1), (3, beacon1 2)]).receivedSpeeds =
        [(1, record1 3 10000), (3, record3 200 2 10000)] := by
  have h := receiveAll_one_record_per_id vehicle2
    [(1, beacon1 0), (2, beacon3 200 1), (3, beacon1 2)] rfl
  refine ⟨rfl, h.1, h.2.1, ?_⟩
  simp [receiveAll, handleIncomingMessage, cleanOldReceivedSpeeds, cleanLoop,
    calculateDistance, vehicle2, beacon1, beacon3, record1, record3, sqrt, Root.le, mapSet]
  norm_num
  simp [mapSet, cleanLoop]
  norm_num

/-! ## C11: a send tick and the neighbor table -/

theorem loadRealTimeData_frame (s : VehicleApp) (file : PositionFeed) :
    (loadRealTimeData s file).receivedSpeeds = s.receivedSpeeds
    ∧ (loadRealTimeData s file).packetsReceived = s.packetsReceived
    ∧ (loadRealTimeData s file).totalDelay = s.totalDelay := by
  cases file with
  | none => exact ⟨rfl, rfl, rfl⟩
  | some root =>
    unfold loadRealTimeData
    dsimp only
    cases feedMember ("vehicle_" ++ toString s.vehicleId) root with
    | none => exact ⟨rfl, rfl, rfl⟩
    | some vehicleData => exact ⟨rfl, rfl, rfl⟩

/-- C11: a send tick leaves the neighbor table and the received counter as
they are, for every agent state, feed content and simulation time:
`sendSpeedMessage` keeps `receivedSpeeds` and `packetsReceived` in the OMNeT++
host, and `SendSpeedMessage` keeps `m_receivedSpeeds`, `m_lastReceived` and
`m_packetsReceived` in the ns-3 host. -/
theorem send_tick_keeps_neighbor_table (s : VehicleApp) (a : VANETSpeedApp) (now : ℚ)
    (file : PositionFeed) :
    (sendSpeedMessage s now file).1.receivedSpeeds = s.receivedSpeeds
    ∧ (sendSpeedMessage s now file).1.packetsReceived = s.packetsReceived
    ∧ (SendSpeedMessage a now file).1.m_receivedSpeeds = a.m_receivedSpeeds
    ∧ (SendSpeedMessage a now file).1.m_lastReceived = a.m_lastReceived
    ∧ (SendSpeedMessage a now file).1.m_packetsReceived = a.m_packetsReceived := by
  obtain ⟨f1, f2, -⟩ := loadRealTimeData_frame s file
  obtain ⟨-, -, -, h4, h5, h6, -, -⟩ := SendSpeedMessage_frame a now file
  obtain ⟨l1, l2, l3, -, -, -⟩ := LoadOpenCVData_frame a file
  refine ⟨?_, ?_, by rw [h5, l2], by rw [h6, l3], by rw [h4, l1]⟩
  · unfold sendSpeedMessage
    split_ifs
    · rfl
    · exact f1
  · unfold sendSpeedMessage
    split_ifs
    · rfl
    · exact f2

/-- Evaluation of C11 on a table whose only record is stale: vehicle 2 holds
the record of vehicle 1 written at time 10 and sends at time 100; the record
of age 90 is still in the table after the send tick. -/
theorem send_tick_keeps_neighbor_table_witness :
    (sendSpeedMessage vehicle2At10 100 (some feedOfVehicle1)).1.receivedSpeeds =
        vehicle2At10.receivedSpeeds
    ∧ vehicle2At10.receivedSpeeds = [(1, record1 10 10000)]
    ∧ (100 : ℚ) - (record1 10 10000).timestamp > 5 := by
  refine ⟨(send_tick_keeps_neighbor_table vehicle2At10 ns3Vehicle0 100
    (some feedOfVehicle1)).1, ?_, ?_⟩
  · simp [vehicle2At10, handleIncomingMessage, cleanOldReceivedSpeeds, cleanLoop,
      calculateDistance, vehicle2, beacon1, record1, sqrt, Root.le, mapSet]
    norm_num
  · norm_num [record1]

/-! ## C12: the two neighbor maps of the ns-3 host -/

section KeyLemmas
variable {K V : Type} [LinearOrder K]

theorem mem_mapKeys_mapSet (k k1 : K) (v : V) (m : List (K × V)) :
    k1 ∈ mapKeys (mapSet k v m) ↔ k1 = k ∨ k1 ∈ mapKeys m := by
  induction m with
  | nil => simp [mapSet, mapKeys]
  | cons e rest ih =>
    obtain ⟨k2, v2⟩ := e
    simp only [mapSet]
    split_ifs with h1 h2
    · simp [mapKeys]
    · subst h2
      simp [mapKeys]
    · have ih2 : k1 ∈ List.map Prod.fst (mapSet k v rest) ↔
          k1 = k ∨ k1 ∈ List.map Prod.fst rest := ih
      simp only [mapKeys, List.map_cons, List.mem_cons, ih2]
      tauto

theorem mapErase_sublist (k : K) (m : List (K × V)) : List.Sublist (mapErase k m) m := by
  induction m with
  | nil => simp [mapErase]
  | cons e rest ih =>
    obtain ⟨k1, v1⟩ := e
    simp only [mapErase]
    split_ifs with h
    · exact List.sublist_cons_self _ _
    · exact List.Sublist.cons₂ _ ih

theorem mapErase_wf (k : K) (m : List (K × V)) (hwf : MapWF m) : MapWF (mapErase k m) :=
  List.Pairwise.sublist (List.Sublist.map _ (mapErase_sublist k m)) hwf

theorem mem_mapKeys_mapErase (k k1 : K) (m : List (K × V)) (hwf : MapWF m) :
    k1 ∈ mapKeys (mapErase k m) ↔ k1 ∈ mapKeys m ∧ k1 ≠ k := by
  induction m with
  | nil => simp [mapErase, mapKeys]
  | cons e rest ih =>
    obtain ⟨k2, v2⟩ := e
    have hrest : MapWF rest := by
      simp only [MapWF, mapKeys, List.map_cons, List.pairwise_cons] at hwf
      exact hwf.2
    have hhead : ∀ a ∈ mapKeys rest, k2 < a := by
      simp only [MapWF, mapKeys, List.map_cons, List.pairwise_cons] at hwf
      exact hwf.1
    have ih2 : k1 ∈ List.map Prod.fst (mapErase k rest) ↔
        k1 ∈ List.map Prod.fst rest ∧ k1 ≠ k := ih hrest
    simp only [mapErase]
    split_ifs with h
    · subst h
      simp only [mapKeys, List.map_cons, List.mem_cons]
      constructor
      · intro hk
        exact ⟨Or.inr hk, ne_of_gt (hhead k1 hk)⟩
      · rintro ⟨hk | hk, hne⟩
        · exact absurd hk hne
        · exact hk
    · simp only [mapKeys, List.map_cons, List.mem_cons, ih2]
      constructor
      · rintro (hk | ⟨hk, hne⟩)
        · exact ⟨Or.inl hk, by rw [hk]; exact fun h2 => h h2.symm⟩
        · exact ⟨Or.inr hk, hne⟩
      · rintro ⟨hk | hk, hne⟩
        · exact Or.inl hk
        · exact Or.inr ⟨hk, hne⟩

theorem mapFind_isSome_iff (k : K) (m : List (K × V)) :
    (mapFind k m).isSome = true ↔ k ∈ mapKeys m := by
  induction m with
  | nil => simp [mapFind, mapKeys]
  | cons e rest ih =>
    obtain ⟨k1, v1⟩ := e
    have ih2 : (mapFind k rest).isSome = true ↔ k ∈ List.map Prod.fst rest := ih
    simp only [mapFind]
    split_ifs with h
    · simp [mapKeys, h]
    · simp only [mapKeys, List.map_cons, List.mem_cons, ih2]
      tauto

end KeyLemmas

theorem evictLoop_fst_wf (now : ℚ) (l speeds : List (Nat × ℚ)) (hwf : MapWF speeds) :
    MapWF (evictLoop now l speeds).1 := by
  induction l generalizing speeds with
  | nil => exact hwf
  | cons e rest ih =>
    simp only [evictLoop]
    split_ifs with h
    · exact ih _ (mapErase_wf e.1 speeds hwf)
    · exact ih _ hwf

theorem mem_mapKeys_evictLoop_fst (now : ℚ) (k : Nat) (l speeds : List (Nat × ℚ))
    (hwf : MapWF speeds) :
    k ∈ mapKeys (evictLoop now l speeds).1 ↔
      k ∈ mapKeys speeds ∧ ¬ ∃ e ∈ l, e.1 = k ∧ now - e.2 > 5 := by
  induction l generalizing speeds with
  | nil => simp [evictLoop]
  | cons e rest ih =>
    simp only [evictLoop]
    split_ifs with h
    · rw [ih _ (mapErase_wf e.1 speeds hwf), mem_mapKeys_mapErase e.1 k speeds hwf]
      constructor
      · rintro ⟨⟨hk, hne⟩, hno⟩
        refine ⟨hk, ?_⟩
        rintro ⟨e1, he1, hkey, hold⟩
        rcases List.mem_cons.mp he1 with h1 | h1
        · exact hne (by rw [← hkey, h1])
        · exact hno ⟨e1, h1, hkey, hold⟩
      · rintro ⟨hk, hno⟩
        refine ⟨⟨hk, ?_⟩, ?_⟩
        · intro hke
          exact hno ⟨e, List.mem_cons_self _ _, hke.symm, h⟩
        · rintro ⟨e1, he1, hkey, hold⟩
          exact hno ⟨e1, List.mem_cons_of_mem _ he1, hkey, hold⟩
    · rw [ih _ hwf]
      constructor
      · rintro ⟨hk, hno⟩
        refine ⟨hk, ?_⟩
        rintro ⟨e1, he1, hkey, hold⟩
        rcases List.mem_cons.mp he1 with h1 | h1
        · exact h (by rw [← h1]; exact hold)
        · exact hno ⟨e1, h1, hkey, hold⟩
      · rintro ⟨hk, hno⟩
        refine ⟨hk, ?_⟩
        rintro ⟨e1, he1, hkey, hold⟩
        exact hno ⟨e1, List.mem_cons_of_mem _ he1, hkey, hold⟩

theorem evictLoop_in_step (now : ℚ) (l speeds : List (Nat × ℚ))
    (hws : MapWF speeds) (hwl : MapWF l)
    (hkeys : ∀ k, k ∈ mapKeys speeds ↔ k ∈ mapKeys l) :
    MapWF (evictLoop now l speeds).1 ∧ MapWF (evictLoop now l speeds).2
    ∧ ∀ k, k ∈ mapKeys (evictLoop now l speeds).1 ↔ k ∈ mapKeys (evictLoop now l speeds).2 := by
  refine ⟨evictLoop_fst_wf now l speeds hws, ?_, ?_⟩
  · rw [evictLoop_snd]
    exact List.Pairwise.sublist (List.Sublist.map _ (List.filter_sublist _)) hwl
  · intro k
    have hnodup : (l.map Prod.fst).Nodup := List.Pairwise.imp (fun hab => ne_of_lt hab) hwl
    rw [mem_mapKeys_evictLoop_fst now k l speeds hws, hkeys k, evictLoop_snd]
    simp only [mapKeys, List.mem_map, List.mem_filter, decide_eq_true_eq]
    constructor
    · rintro ⟨⟨e, he, hkey⟩, hno⟩
      refine ⟨e, ⟨he, ?_⟩, hkey⟩
      by_contra hold
      exact hno ⟨e, he, hkey, not_le.mp hold⟩
    · rintro ⟨e, ⟨he, hfresh⟩, hkey⟩
      refine ⟨⟨e, he, hkey⟩, ?_⟩
      rintro ⟨e1, he1, hkey1, hold⟩
      have heq : e1 = e := List.inj_on_of_nodup_map hnodup he1 he (hkey1.trans hkey.symm)
      rw [heq] at hold
      exact absurd hfresh (not_le.mpr hold)

theorem sorted_keys_eq_of_mem_iff (l1 l2 : List Nat) (h1 : l1.Pairwise (· < ·))
    (h2 : l2.Pairwise (· < ·)) (hmem : ∀ k, k ∈ l1 ↔ k ∈ l2) : l1 = l2 := by
  have n1 : l1.Nodup := List.Pairwise.imp (fun hab => ne_of_lt hab) h1
  have n2 : l2.Nodup := List.Pairwise.imp (fun hab => ne_of_lt hab) h2
  exact List.eq_of_perm_of_sorted ((List.perm_ext_iff_of_nodup n1 n2).mpr hmem) h1 h2

theorem handlePacket_empty (s : VANETSpeedApp) (now : ℚ) (packet : Packet)
    (hsize : ¬ 0 < packet.size) : handlePacket s now packet = s := by
  unfold handlePacket
  dsimp only
  rw [if_neg hsize]

theorem handlePacket_in_step (s : VANETSpeedApp) (now : ℚ) (packet : Packet)
    (hws : MapWF s.m_receivedSpeeds) (hwl : MapWF s.m_lastReceived)
    (hkeys : mapKeys s.m_receivedSpeeds = mapKeys s.m_lastReceived) :
    MapWF (handlePacket s now packet).m_receivedSpeeds
    ∧ MapWF (handlePacket s now packet).m_lastReceived
    ∧ mapKeys (handlePacket s now packet).m_receivedSpeeds =
        mapKeys (handlePacket s now packet).m_lastReceived := by
  have hfinish : ∀ speeds l : List (Nat × ℚ), MapWF speeds → MapWF l →
      (∀ k, k ∈ mapKeys speeds ↔ k ∈ mapKeys l) →
      MapWF (evictLoop now l speeds).1 ∧ MapWF (evictLoop now l speeds).2
      ∧ mapKeys (evictLoop now l speeds).1 = mapKeys (evictLoop now l speeds).2 := by
    intro speeds l h1 h2 h3
    obtain ⟨r1, r2, r3⟩ := evictLoop_in_step now l speeds h1 h2 h3
    exact ⟨r1, r2, sorted_keys_eq_of_mem_iff _ _ r1 r2 r3⟩
  by_cases hsize : 0 < packet.size
  · by_cases hacc : (sqrt ((packet.header.m_positionX - s.m_positionX) ^ 2
          + (packet.header.m_positionY - s.m_positionY) ^ 2)).le 300
        ∧ packet.header.m_vehicleId ≠ s.m_vehicleId
    · rw [handlePacket_accept s now packet hsize hacc]
      refine hfinish _ _ (mapSet_wf _ _ _ hws) (mapSet_wf _ _ _ hwl) ?_
      intro k
      rw [mem_mapKeys_mapSet, mem_mapKeys_mapSet, hkeys]
    · rw [handlePacket_reject s now packet hsize hacc]
      refine hfinish _ _ hws hwl ?_
      intro k
      rw [hkeys]
  · rw [handlePacket_empty s now packet hsize]
    exact ⟨hws, hwl, hkeys⟩

theorem HandleRead_in_step (s : VANETSpeedApp) (now : ℚ) (queue : List Packet)
    (hws : MapWF s.m_receivedSpeeds) (hwl : MapWF s.m_lastReceived)
    (hkeys : mapKeys s.m_receivedSpeeds = mapKeys s.m_lastReceived) :
    MapWF (HandleRead s now queue).m_receivedSpeeds
    ∧ MapWF (HandleRead s now queue).m_lastReceived
    ∧ mapKeys (HandleRead s now queue).m_receivedSpeeds =
        mapKeys (HandleRead s now queue).m_lastReceived := by
  induction queue generalizing s with
  | nil => exact ⟨hws, hwl, hkeys⟩
  | cons packet rest ih =>
    obtain ⟨h1, h2, h3⟩ := handlePacket_in_step s now packet hws hwl hkeys
    simp only [HandleRead]
    exact ih _ h1 h2 h3

theorem agentStep_in_step (s : VANETSpeedApp) (ev : AgentEvent)
    (hws : MapWF s.m_receivedSpeeds) (hwl : MapWF s.m_lastReceived)
    (hkeys : mapKeys s.m_receivedSpeeds = mapKeys s.m_lastReceived) :
    MapWF (agentStep s ev).m_receivedSpeeds
    ∧ MapWF (agentStep s ev).m_lastReceived
    ∧ mapKeys (agentStep s ev).m_receivedSpeeds = mapKeys (agentStep s ev).m_lastReceived := by
  cases ev with
  | start now =>
    have h : (StartApplication s now).m_receivedSpeeds = s.m_receivedSpeeds
        ∧ (StartApplication s now).m_lastReceived = s.m_lastReceived := by
      unfold StartApplication ScheduleTx
      dsimp only
      exact ⟨rfl, rfl⟩
    simp only [agentStep, h.1, h.2]
    exact ⟨hws, hwl, hkeys⟩
  | send now file =>
    obtain ⟨-, -, -, -, h5, h6, -, -⟩ := SendSpeedMessage_frame s now file
    obtain ⟨-, l2, l3, -, -, -⟩ := LoadOpenCVData_frame s file
    simp only [agentStep, h5, h6, l2, l3]
    exact ⟨hws, hwl, hkeys⟩
  | read now queue => exact HandleRead_in_step s now queue hws hwl hkeys
  | stop => exact ⟨hws, hwl, hkeys⟩

theorem agentRun_in_step (s : VANETSpeedApp) (evs : List AgentEvent)
    (hws : MapWF s.m_receivedSpeeds) (hwl : MapWF s.m_lastReceived)
    (hkeys : mapKeys s.m_receivedSpeeds = mapKeys s.m_lastReceived) :
    MapWF (agentRun s evs).m_receivedSpeeds
    ∧ MapWF (agentRun s evs).m_lastReceived
    ∧ mapKeys (agentRun s evs).m_receivedSpeeds = mapKeys (agentRun s evs).m_lastReceived := by
  induction evs generalizing s with
  | nil => exact ⟨hws, hwl, hkeys⟩
  | cons ev rest ih =>
    obtain ⟨h1, h2, h3⟩ := agentStep_in_step s ev hws hwl hkeys
    simp only [agentRun]
    exact ih _ h1 h2 h3

/-- C12: in every state that the ns-3 agent reaches from its construction and
`Setup` (both maps empty) by start, send, receive and stop events,
`m_receivedSpeeds` and `m_lastReceived` have the same keys, in the same
order; so a key is in one map exactly when it is in the other, and a lookup
finds a speed exactly when it finds a last-received time. -/
theorem agentRun_maps_in_step (packetSize nPackets dataRate vehicleId : Nat)
    (evs : List AgentEvent) :
    mapKeys (agentRun (Setup packetSize nPackets dataRate vehicleId) evs).m_receivedSpeeds =
        mapKeys (agentRun (Setup packetSize nPackets dataRate vehicleId) evs).m_lastReceived
    ∧ (∀ k : Nat,
        k ∈ mapKeys (agentRun (Setup packetSize nPackets dataRate vehicleId) evs).m_receivedSpeeds
          ↔ k ∈ mapKeys
              (agentRun (Setup packetSize nPackets dataRate vehicleId) evs).m_lastReceived)
    ∧ (∀ k : Nat,
        (mapFind k
            (agentRun (Setup packetSize nPackets dataRate vehicleId) evs).m_receivedSpeeds).isSome
          = (mapFind k
            (agentRun (Setup packetSize nPackets dataRate vehicleId) evs).m_lastReceived).isSome) := by
  have hinit : MapWF (Setup packetSize nPackets dataRate vehicleId).m_receivedSpeeds
      ∧ MapWF (Setup packetSize nPackets dataRate vehicleId).m_lastReceived := by
    simp [Setup, MapWF, mapKeys]
  obtain ⟨-, -, h3⟩ := agentRun_in_step (Setup packetSize nPackets dataRate vehicleId) evs
    hinit.1 hinit.2 rfl
  refine ⟨h3, fun k => by rw [h3], fun k => ?_⟩
  rw [Bool.eq_iff_iff, mapFind_isSome_iff, mapFind_isSome_iff, h3]

/-- Evaluation of C12 on a run with an eviction: the agent starts, records
vehicle 1 at time 2 and, at time 10, records vehicle 2 and evicts vehicle 1
from both maps. -/
theorem agentRun_maps_in_step_witness :
    mapKeys (agentRun (Setup 512 1000 1000000 0)
        [AgentEvent.start 1, AgentEvent.read 2 [ns3Packet 1 100], AgentEvent.send 3 none,
          AgentEvent.read 10 [ns3Packet 2 200], AgentEvent.stop]).m_receivedSpeeds =
      mapKeys (agentRun (Setup 512 1000 1000000 0)
        [AgentEvent.start 1, AgentEvent.read 2 [ns3Packet 1 100], AgentEvent.send 3 none,
          AgentEvent.read 10 [ns3Packet 2 200], AgentEvent.stop]).m_lastReceived
    ∧ (agentRun (Setup 512 1000 1000000 0)
        [AgentEvent.start 1, AgentEvent.read 2 [ns3Packet 1 100], AgentEvent.send 3 none,
          AgentEvent.read 10 [ns3Packet 2 200], AgentEvent.stop]).m_receivedSpeeds = [(2, 10)]
    ∧ (agentRun (Setup 512 1000 1000000 0)
        [AgentEvent.start 1, AgentEvent.read 2 [ns3Packet 1 100], AgentEvent.send 3 none,
          AgentEvent.read 10 [ns3Packet 2 200], AgentEvent.stop]).m_lastReceived = [(2, 10)] := by
  refine ⟨(agentRun_maps_in_step 512 1000 1000000 0
    [AgentEvent.start 1, AgentEvent.read 2 [ns3Packet 1 100], AgentEvent.send 3 none,
      AgentEvent.read 10 [ns3Packet 2 200], AgentEvent.stop]).1, ?_, ?_⟩
  · simp [agentRun, agentStep, StartApplication, StopApplication, ScheduleTx, SendSpeedMessage,
      LoadOpenCVData, HandleRead, handlePacket, ns3Packet, Setup, sqrt, Root.le, mapSet,
      mapErase, evictLoop]
    norm_num [evictLoop, mapErase]
  · simp [agentRun, agentStep, StartApplication, StopApplication, ScheduleTx, SendSpeedMessage,
      LoadOpenCVData, HandleRead, handlePacket, ns3Packet, Setup, sqrt, Root.le, mapSet,
      mapErase, evictLoop]
    norm_num [evictLoop, mapErase]

end Vanet
